import Mathlib

/-!
Verification of the MongoDB natural-language query engine
(`MongoDBQueryEngine` in test.py / main1.py, `Database` in common/database.py).

The Python values flowing through the engine (parsed JSON, BSON documents,
queries) are embedded as the inductive `BVal`; Python dicts are modelled as
insertion-ordered association lists, matching CPython's ordered dicts.
Python exceptions are modelled by the error type `PyError` and fallible
code returns `Except PyError _`.  Library functions (json.loads,
datetime.fromisoformat, int(), str.lower, ...) are given executable models
faithful to their documented behaviour on the inputs the engine feeds them.
-/

/-- Python exceptions raised or caught by the engine, with their message. -/
inductive PyError where
  | valueError : String → PyError
  | typeError : String → PyError
  | runtimeError : String → PyError
  | jsonDecodeError : String → PyError
  | attributeError : String → PyError
  | keyError : String → PyError
  deriving DecidableEq, Repr

/-- The message text of an exception, as Python's str(e) returns it. -/
def PyError.message : PyError → String
  | .valueError m => m
  | .typeError m => m
  | .runtimeError m => m
  | .jsonDecodeError m => m
  | .attributeError m => m
  | .keyError m => m

/-- A Python datetime.datetime: proleptic Gregorian civil date plus time of
day.  Microseconds and timezone are dropped: no claim observes them. -/
structure PyDateTime where
  year : Int
  month : Int
  day : Int
  hour : Int
  minute : Int
  second : Int
  deriving DecidableEq, Repr

/-- Python/BSON values the engine handles: JSON scalars, datetimes, BSON
ObjectIds, lists and (insertion-ordered) dicts.  Floats are kept as their
raw JSON token (`vnum`): no claim computes with float values. -/
inductive BVal where
  | vstr : String → BVal
  | vint : Int → BVal
  | vnum : String → BVal
  | vbool : Bool → BVal
  | vnone : BVal
  | vdt : PyDateTime → BVal
  | vobjid : String → BVal
  | varr : List BVal → BVal
  | vobj : List (String × BVal) → BVal

/-- First-occurrence lookup in a dict, Python d[k] / d.get(k). -/
def dictLookup : List (String × BVal) → String → Option BVal
  | [], _ => none
  | (k, v) :: rest, key => if k = key then some v else dictLookup rest key

/-- Python `k in d` on a dict. -/
def dictContains (d : List (String × BVal)) (key : String) : Bool :=
  (dictLookup d key).isSome

/-- Python dict assignment d[k] = v: replaces the value at the first
occurrence of k keeping its position, else appends the new entry. -/
def dictSet : List (String × BVal) → String → BVal → List (String × BVal)
  | [], key, v => [(key, v)]
  | (k, w) :: rest, key, v =>
      if k = key then (k, v) :: rest else (k, w) :: dictSet rest key v

/-- The keys of a dict in insertion order. -/
def dictKeys (d : List (String × BVal)) : List String := d.map Prod.fst

/-- Python str.get(k, default) -/
def dictGetD (d : List (String × BVal)) (key : String) (dflt : BVal) : BVal :=
  (dictLookup d key).getD dflt

/-- Python's ASCII whitespace, the characters re's \s and str.strip treat
as space (the Unicode extras never appear in the engine's inputs). -/
def isPySpace (c : Char) : Bool :=
  c = ' ' || c = '\t' || c = '\n' || c = '\r' || c = '\x0b' || c = '\x0c'

/-- Python str.lower restricted to ASCII case mapping. -/
def pyLower (s : String) : String := String.mk (s.data.map Char.toLower)

/-- Python str.strip() on a character list. -/
def pyStripList (cs : List Char) : List Char :=
  ((cs.dropWhile isPySpace).reverse.dropWhile isPySpace).reverse

/-- Python str.strip(). -/
def pyStrip (s : String) : String := String.mk (pyStripList s.data)

/-- Digits of a nonnegative integer, via Nat. -/
def natDigits (n : Nat) : String := toString n

/-- Python str(i) for an int. -/
def pyIntStr (i : Int) : String :=
  if i < 0 then "-" ++ natDigits (-i).toNat else natDigits i.toNat

/-- Zero-padded two-digit rendering, Python format spec 02d (for the
nonnegative values the engine formats). -/
def pad2 (i : Int) : String :=
  if 0 ≤ i ∧ i < 10 then "0" ++ pyIntStr i else pyIntStr i

mutual
/-- Model of Python str(value)/json-ish rendering of a value, used for the
example strings the schema analyzer stores and as an injective printer in
proofs.  The exact text is inert to every claim. -/
def pyStr : BVal → String
  | .vstr s => s
  | .vint i => pyIntStr i
  | .vnum raw => raw
  | .vbool b => if b then "True" else "False"
  | .vnone => "None"
  | .vdt dt =>
      pyIntStr dt.year ++ "-" ++ pad2 dt.month ++ "-" ++ pad2 dt.day ++ " " ++
        pad2 dt.hour ++ ":" ++ pad2 dt.minute ++ ":" ++ pad2 dt.second
  | .vobjid s => s
  | .varr items => "[" ++ pyStrList items ++ "]"
  | .vobj entries => "\x7b" ++ pyStrObj entries ++ "\x7d"

/-- Comma-joined renderings of list items. -/
def pyStrList : List BVal → String
  | [] => ""
  | [x] => pyStr x
  | x :: rest => pyStr x ++ ", " ++ pyStrList rest

/-- Comma-joined renderings of dict entries. -/
def pyStrObj : List (String × BVal) → String
  | [] => ""
  | [(k, v)] => "\x22" ++ k ++ "\x22: " ++ pyStr v
  | (k, v) :: rest => "\x22" ++ k ++ "\x22: " ++ pyStr v ++ ", " ++ pyStrObj rest
end

mutual
/-- Model of json.loads(json_util.dumps(x)) applied by execute_query to
result documents: BSON datetimes and ObjectIds become their MongoDB
extended-JSON dicts, everything else survives the round trip unchanged. -/
def bsonRoundTrip : BVal → BVal
  | .vdt dt => .vobj [("$date", .vstr (pyStr (.vdt dt)))]
  | .vobjid s => .vobj [("$oid", .vstr s)]
  | .varr items => .varr (bsonRoundTripList items)
  | .vobj entries => .vobj (bsonRoundTripObj entries)
  | v => v

/-- bsonRoundTrip over a list. -/
def bsonRoundTripList : List BVal → List BVal
  | [] => []
  | x :: rest => bsonRoundTrip x :: bsonRoundTripList rest

/-- bsonRoundTrip over the entries of a dict. -/
def bsonRoundTripObj : List (String × BVal) → List (String × BVal)
  | [] => []
  | (k, v) :: rest => (k, bsonRoundTrip v) :: bsonRoundTripObj rest
end

/-! ## `_fix_date_formats` (test.py lines 179-211) -/

/-- The ISO format string the code substitutes for custom formats. -/
def isoFormat : String := "%Y-%m-%dT%H:%M:%S.%LZ"

/-- Whether a key is one of the three date-conversion operators of the
second branch of `_fix_date_formats`. -/
def isDateConvOp (k : String) : Bool :=
  k = "$dateToString" || k = "$dateToParts" || k = "$dateFromParts"

/-- Whether a value is a dict holding both a "dateString" and a "format"
entry (the guard of the first branch of `_fix_date_formats`). -/
def isDictWithDateStringAndFormat (v : BVal) : Bool :=
  match v with
  | .vobj m => dictContains m "dateString" && dictContains m "format"
  | _ => false

/-- Whether a value is a dict holding a "format" entry (the guard of the
second branch). -/
def isDictWithFormat (v : BVal) : Bool :=
  match v with
  | .vobj m => dictContains m "format"
  | _ => false

/-- Line 187: the replacement dict holding only the dateString entry. -/
def dateFromStringReplacement (v : BVal) : BVal :=
  match v with
  | .vobj m => .vobj [("dateString", dictGetD m "dateString" .vnone)]
  | other => other

/-- Lines 192-195: copy of the dict with format set to the ISO string. -/
def formatToIsoReplacement (v : BVal) : BVal :=
  match v with
  | .vobj m => .vobj (dictSet m "format" (.vstr isoFormat))
  | other => other

mutual
/-- MongoDBQueryEngine._fix_date_formats, test.py lines 179-211, translated
branch for branch. -/
def fix_date_formats : BVal → BVal
  | .vobj entries => .vobj (fixObjEntries entries)
  | .varr items => .varr (fixListItems items)
  | q => q

/-- The dict loop of `_fix_date_formats` (lines 182-205): each entry (k, v)
is rewritten as the code's if/elif chain does.  In the second branch the
code's else arm and in the final branches the dict case call the method
itself, and the code's list comprehension and untouched-scalar arm coincide
with what the top level of `fix_date_formats` does on a list or scalar. -/
def fixObjEntries : List (String × BVal) → List (String × BVal)
  | [] => []
  | (k, v) :: rest =>
      (k,
        if k = "$dateFromString" ∧ isDictWithDateStringAndFormat v then
          dateFromStringReplacement v
        else if isDateConvOp k then
          if isDictWithFormat v then formatToIsoReplacement v
          else fix_date_formats v
        else
          match v with
          | .vobj _ => fix_date_formats v
          | .varr _ => fix_date_formats v
          | other => other) :: fixObjEntries rest

/-- The list comprehension of lines 202 and 208: recurse into dict and list
items, keep scalars as they are. -/
def fixListItems : List BVal → List BVal
  | [] => []
  | item :: rest =>
      (match item with
       | .vobj _ => fix_date_formats item
       | .varr _ => fix_date_formats item
       | other => other) :: fixListItems rest
end

mutual
/-- The claim's reading of `_fix_date_formats`, written from the spec
sentence: (1) a "$dateFromString" value that is a dict with both
"dateString" and "format" becomes a dict with only the "dateString" entry;
(2) a "$dateToString"/"$dateToParts"/"$dateFromParts" value that is a dict
containing "format" keeps its other entries and gets format = ISO; (3)
every other key and every non-dict, non-list value is unchanged, recursing
into nested dicts and lists. -/
def fix_date_formats_spec : BVal → BVal
  | .vobj entries => .vobj (fixSpecObj entries)
  | .varr items => .varr (fixSpecList items)
  | q => q

/-- Entry-wise form of the claim's three cases. -/
def fixSpecObj : List (String × BVal) → List (String × BVal)
  | [] => []
  | (k, v) :: rest =>
      (k,
        if k = "$dateFromString" ∧ isDictWithDateStringAndFormat v then
          dateFromStringReplacement v
        else if isDateConvOp k ∧ isDictWithFormat v then
          formatToIsoReplacement v
        else
          match v with
          | .vobj _ => fix_date_formats_spec v
          | .varr _ => fix_date_formats_spec v
          | other => other) :: fixSpecObj rest

/-- The claim's recursion into nested lists. -/
def fixSpecList : List BVal → List BVal
  | [] => []
  | item :: rest =>
      (match item with
       | .vobj _ => fix_date_formats_spec item
       | .varr _ => fix_date_formats_spec item
       | other => other) :: fixSpecList rest
end

/-! ## JSON parsing: an executable model of json.loads -/

/-- The whitespace json.loads skips between tokens. -/
def isJsonWs (c : Char) : Bool := c = ' ' || c = '\t' || c = '\n' || c = '\r'

/-- Skip JSON whitespace. -/
def jsonSkipWs (cs : List Char) : List Char := cs.dropWhile isJsonWs

/-- Whether a char list starts with the given literal. -/
def startsWithCL : List Char → List Char → Bool
  | _, [] => true
  | [], _ :: _ => false
  | c :: cs, d :: ds => c = d && startsWithCL cs ds

/-- Python substring test needle in hay. -/
def containsSubCL (hay needle : List Char) : Bool :=
  if startsWithCL hay needle then true
  else match hay with
    | [] => false
    | _ :: rest => containsSubCL rest needle

/-- Python substring operator sub in s. -/
def pyContainsSub (s sub : String) : Bool := containsSubCL s.data sub.data

/-- Parse a run of decimal digits, returning them and the rest. -/
def takeDigits (cs : List Char) : List Char × List Char :=
  (cs.takeWhile Char.isDigit, cs.dropWhile Char.isDigit)

/-- Numeric value of a digit run (digits only). -/
def digitsToNat (ds : List Char) : Nat :=
  ds.foldl (fun acc c => acc * 10 + (c.toNat - 48)) 0

/-- Parse a JSON number token: returns the token's characters, whether it
is integral (no fraction, no exponent), and the rest.  Grammar as in the
json module: -? (0 | [1-9][0-9]*) (.[0-9]+)? ([eE][+-]?[0-9]+)?. -/
def jsonParseNumber (cs : List Char) : Option (List Char × Bool × List Char) :=
  let (sign, cs1) := match cs with
    | '-' :: rest => (['-'], rest)
    | _ => (([] : List Char), cs)
  match cs1 with
  | [] => none
  | c :: _ =>
    if ¬ c.isDigit then none
    else
      -- the int part is 0 or [1-9][0-9]*: after a leading 0 the token stops
      let (intPart, cs2) :=
        if c = '0' then (['0'], cs1.drop 1) else takeDigits cs1
      let (fracPart, cs3) := match cs2 with
          | '.' :: rest =>
              let (ds, r) := takeDigits rest
              if ds.isEmpty then (none, cs2) else (some ('.' :: ds), r)
          | _ => (none, cs2)
      match fracPart with
        | none =>
          let (expPart, cs4) := match cs3 with
            | e :: rest =>
              if e = 'e' ∨ e = 'E' then
                let (sgn, rest2) := match rest with
                  | s :: r2 => if s = '+' ∨ s = '-' then ([s], r2) else (([] : List Char), rest)
                  | [] => (([] : List Char), rest)
                let (ds, r3) := takeDigits rest2
                if ds.isEmpty then (none, cs3) else (some (e :: sgn ++ ds), r3)
              else (none, cs3)
            | [] => (none, cs3)
          match expPart with
          | none => some (sign ++ intPart, true, cs4)
          | some ex => some (sign ++ intPart ++ ex, false, cs4)
        | some fr =>
          let afterFrac := cs3
          let (expPart, cs4) := match afterFrac with
            | e :: rest =>
              if e = 'e' ∨ e = 'E' then
                let (sgn, rest2) := match rest with
                  | s :: r2 => if s = '+' ∨ s = '-' then ([s], r2) else (([] : List Char), rest)
                  | [] => (([] : List Char), rest)
                let (ds, r3) := takeDigits rest2
                if ds.isEmpty then (none, afterFrac) else (some (e :: sgn ++ ds), r3)
              else (none, afterFrac)
            | [] => (none, afterFrac)
          some (sign ++ intPart ++ fr ++ (expPart.getD []), false, cs4)

/-- The integer value of an integral JSON number token. -/
def jsonTokenToInt (tok : List Char) : Int :=
  match tok with
  | '-' :: ds => -(digitsToNat ds : Int)
  | ds => (digitsToNat ds : Int)

/-- Parse a JSON string body after the opening quote: standard escapes and
a rejection of raw control characters, as json.loads does in strict mode. -/
def jsonParseStringBody (fuel : Nat) (cs : List Char) (acc : List Char) :
    Option (String × List Char) :=
  match fuel, cs with
  | 0, _ => none
  | _, [] => none
  | fuel + 1, c :: rest =>
    if c = '"' then some (String.mk acc.reverse, rest)
    else if c = '\\' then
      match rest with
      | [] => none
      | e :: rest2 =>
        if e = '"' then jsonParseStringBody fuel rest2 ('"' :: acc)
        else if e = '\\' then jsonParseStringBody fuel rest2 ('\\' :: acc)
        else if e = '/' then jsonParseStringBody fuel rest2 ('/' :: acc)
        else if e = 'b' then jsonParseStringBody fuel rest2 ('\x08' :: acc)
        else if e = 'f' then jsonParseStringBody fuel rest2 ('\x0c' :: acc)
        else if e = 'n' then jsonParseStringBody fuel rest2 ('\n' :: acc)
        else if e = 'r' then jsonParseStringBody fuel rest2 ('\r' :: acc)
        else if e = 't' then jsonParseStringBody fuel rest2 ('\t' :: acc)
        else if e = 'u' then
          match rest2 with
          | h1 :: h2 :: h3 :: h4 :: rest3 =>
            let hexVal (h : Char) : Option Nat :=
              if h.isDigit then some (h.toNat - 48)
              else if 'a' ≤ h ∧ h ≤ 'f' then some (h.toNat - 87)
              else if 'A' ≤ h ∧ h ≤ 'F' then some (h.toNat - 55)
              else none
            match hexVal h1, hexVal h2, hexVal h3, hexVal h4 with
            | some a, some b, some c2, some d =>
                let n := ((a * 16 + b) * 16 + c2) * 16 + d
                let ch := if h : n.isValidChar then Char.ofNatAux n h else '?'
                jsonParseStringBody fuel rest3 (ch :: acc)
            | _, _, _, _ => none
          | _ => none
        else none
    else if c.toNat < 32 then none
    else jsonParseStringBody fuel rest (c :: acc)

mutual
/-- Recursive-descent JSON value parser, fueled (fuel bounds nesting; the
top entry supplies more fuel than the input length, so it never runs out). -/
def jsonParseValue (fuel : Nat) (cs : List Char) : Option (BVal × List Char) :=
  match fuel with
  | 0 => none
  | fuel + 1 =>
    let cs := jsonSkipWs cs
    match cs with
    | [] => none
    | c :: rest =>
      if c = '"' then
        match jsonParseStringBody (rest.length + 1) rest [] with
        | some (s, r) => some (.vstr s, r)
        | none => none
      else if c = '\x7b' then
        jsonParseMembers fuel rest [] true
      else if c = '[' then
        jsonParseItems fuel rest [] true
      else if startsWithCL cs ['t','r','u','e'] then some (.vbool true, cs.drop 4)
      else if startsWithCL cs ['f','a','l','s','e'] then some (.vbool false, cs.drop 5)
      else if startsWithCL cs ['n','u','l','l'] then some (.vnone, cs.drop 4)
      else if startsWithCL cs ['N','a','N'] then some (.vnum "NaN", cs.drop 3)
      else if startsWithCL cs ['I','n','f','i','n','i','t','y'] then
        some (.vnum "Infinity", cs.drop 8)
      else if startsWithCL cs ['-','I','n','f','i','n','i','t','y'] then
        some (.vnum "-Infinity", cs.drop 9)
      else
        match jsonParseNumber cs with
        | some (tok, integral, r) =>
            if integral then some (.vint (jsonTokenToInt tok), r)
            else some (.vnum (String.mk tok), r)
        | none => none

/-- Object members; a repeated key keeps the first position with the last
value, as dict assignment gives json.loads. -/
def jsonParseMembers (fuel : Nat) (cs : List Char) (acc : List (String × BVal))
    (first : Bool) : Option (BVal × List Char) :=
  match fuel with
  | 0 => none
  | fuel + 1 =>
    let cs1 := jsonSkipWs cs
    match cs1 with
    | '\x7d' :: rest => if first then some (.vobj acc, rest) else none
    | '"' :: rest =>
      match jsonParseStringBody (rest.length + 1) rest [] with
      | none => none
      | some (key, r1) =>
        match jsonSkipWs r1 with
        | ':' :: r2 =>
          match jsonParseValue fuel r2 with
          | none => none
          | some (v, r3) =>
            let acc2 := dictSet acc key v
            match jsonSkipWs r3 with
            | ',' :: r4 => jsonParseMembers fuel r4 acc2 false
            | '\x7d' :: r4 => some (.vobj acc2, r4)
            | _ => none
        | _ => none
    | _ => none

/-- Array items. -/
def jsonParseItems (fuel : Nat) (cs : List Char) (acc : List BVal)
    (first : Bool) : Option (BVal × List Char) :=
  match fuel with
  | 0 => none
  | fuel + 1 =>
    let cs1 := jsonSkipWs cs
    match cs1 with
    | ']' :: rest => if first then some (.varr acc.reverse, rest) else none
    | _ =>
      match jsonParseValue fuel cs1 with
      | none => none
      | some (v, r1) =>
        match jsonSkipWs r1 with
        | ',' :: r2 => jsonParseItems fuel r2 (v :: acc) false
        | ']' :: r2 => some (.varr (v :: acc).reverse, r2)
        | _ => none
end

/-- Model of json.loads: parse one value, insist nothing but whitespace
follows, fail with a json.JSONDecodeError otherwise. -/
def jsonLoads (s : String) : Except PyError BVal :=
  match jsonParseValue (s.length + 1) s.data with
  | some (v, rest) =>
      if jsonSkipWs rest = [] then .ok v
      else .error (.jsonDecodeError "Extra data")
  | none => .error (.jsonDecodeError "Expecting value")

/-! ## Extracting the query JSON from the LLM response
(test.py generate_mongodb_query, lines 291-336) -/

/-- Split a char list at the first occurrence of a triple backtick,
returning the part before it and the part after it. -/
def splitAtTriple : List Char → Option (List Char × List Char)
  | '`' :: '`' :: '`' :: rest => some ([], rest)
  | c :: rest =>
      match splitAtTriple rest with
      | some (a, b) => some (c :: a, b)
      | none => none
  | [] => none

/-- One attempt of the fence pattern at the head of the text: an opening
triple backtick, an optional literal json, then the lazily captured body up
to the next triple backtick, whitespace-stripped (the effect of the
greedy-lazy-greedy interplay in the pattern). -/
def fenceMatchAt (cs : List Char) : Option (List Char) :=
  match cs with
  | '`' :: '`' :: '`' :: rest =>
      let rest2 := if startsWithCL rest ['j','s','o','n'] then rest.drop 4 else rest
      match splitAtTriple rest2 with
      | some (content, _) => some (pyStripList content)
      | none => none
  | _ => none

/-- re.search of the fence pattern: try the match at each start position
from the left, first success wins. -/
def reSearchFence : List Char → Option (List Char)
  | [] => none
  | c :: rest =>
      match fenceMatchAt (c :: rest) with
      | some cap => some cap
      | none => reSearchFence rest

/-- Python "query" in query_data for the parsed JSON value: key test for a
dict, element test for a list, substring test for a string, TypeError for
the other JSON scalars. -/
def pyInQueryTest (v : BVal) : Except PyError Bool :=
  match v with
  | .vobj entries => .ok (dictContains entries "query")
  | .varr items =>
      .ok (items.any fun x => match x with | .vstr s => s = "query" | _ => false)
  | .vstr s => .ok (pyContainsSub s "query")
  | _ => .error (.typeError "argument of type is not iterable")

/-- Lines 303-307 and 331-332: when "query" is in the parsed value, assign
the fixed query back.  Assignment succeeds only on a dict; on a list or a
string that passed the membership test it raises TypeError. -/
def applyQueryFix (v : BVal) : Except PyError BVal := do
  let b ← pyInQueryTest v
  if b then
    match v with
    | .vobj entries =>
        .ok (.vobj (dictSet entries "query"
          (fix_date_formats (dictGetD entries "query" .vnone))))
    | .varr _ => .error (.typeError "list indices must be integers or slices, not str")
    | .vstr _ => .error (.typeError "string indices must be integers")
    | other => .ok other
  else .ok v

/-- The JSON-extraction step of generate_mongodb_query (test.py lines
291-336): search for a fenced block; in the fenced branch parse it, catch
only json.JSONDecodeError (re-raised as ValueError) and let anything else
escape; in the no-fence branch parse the whole text under a bare except
that turns every failure into ValueError. -/
def extract_query_data (response_text : String) : Except PyError BVal :=
  match reSearchFence response_text.data with
  | some cap =>
      let json_str := String.mk cap
      match jsonLoads json_str with
      | .error (.jsonDecodeError m) =>
          .error (.valueError ("Generated invalid JSON: " ++ m ++
            "\nJSON string: " ++ json_str))
      | .error e => .error e
      | .ok qd => applyQueryFix qd
  | none =>
      match jsonLoads response_text >>= applyQueryFix with
      | .ok qd => .ok qd
      | .error _ =>
          .error (.valueError ("Could not extract valid JSON from response: " ++
            response_text))

/-! ## The calendar: datetime arithmetic used by get_time_range_query
(test.py lines 466-512) -/

/-- Gregorian leap year. -/
def isLeapYear (y : Int) : Bool := y % 4 = 0 && (y % 100 ≠ 0 || y % 400 = 0)

/-- Days in a month of the proleptic Gregorian calendar. -/
def daysInMonth (y m : Int) : Int :=
  if m = 2 then (if isLeapYear y then 29 else 28)
  else if m = 4 ∨ m = 6 ∨ m = 9 ∨ m = 11 then 30
  else 31

/-- A calendar-valid datetime: in-range month, day, and time fields, year
at least MINYEAR = 1 (the MAXYEAR = 9999 ceiling is not modelled; see
get_time_range_query). -/
def validDT (dt : PyDateTime) : Prop :=
  1 ≤ dt.year ∧ 1 ≤ dt.month ∧ dt.month ≤ 12 ∧ 1 ≤ dt.day ∧
    dt.day ≤ daysInMonth dt.year dt.month ∧
    0 ≤ dt.hour ∧ dt.hour ≤ 23 ∧ 0 ≤ dt.minute ∧ dt.minute ≤ 59 ∧
    0 ≤ dt.second ∧ dt.second ≤ 59

instance (dt : PyDateTime) : Decidable (validDT dt) := by
  unfold validDT; infer_instance

/-- datetime.datetime(y, m, d): midnight of the given civil date. -/
def mkDate (y m d : Int) : PyDateTime := ⟨y, m, d, 0, 0, 0⟩

/-- Whether a datetime sits at a midnight day boundary. -/
def atMidnight (dt : PyDateTime) : Prop :=
  dt.hour = 0 ∧ dt.minute = 0 ∧ dt.second = 0

instance (dt : PyDateTime) : Decidable (atMidnight dt) := by
  unfold atMidnight; infer_instance

/-- dt + timedelta(days=1): advance the civil date, keep the time. -/
def nextDay (dt : PyDateTime) : PyDateTime :=
  if dt.day < daysInMonth dt.year dt.month then { dt with day := dt.day + 1 }
  else if dt.month < 12 then { dt with month := dt.month + 1, day := 1 }
  else { dt with year := dt.year + 1, month := 1, day := 1 }

/-- dt - timedelta(days=1). -/
def prevDay (dt : PyDateTime) : PyDateTime :=
  if 1 < dt.day then { dt with day := dt.day - 1 }
  else if 1 < dt.month then
    { dt with month := dt.month - 1, day := daysInMonth dt.year (dt.month - 1) }
  else { dt with year := dt.year - 1, month := 12, day := 31 }

/-- dt + timedelta(days=k). -/
def addDays (k : Nat) (dt : PyDateTime) : PyDateTime :=
  match k with
  | 0 => dt
  | k + 1 => nextDay (addDays k dt)

/-- dt - timedelta(days=k). -/
def subDays (k : Nat) (dt : PyDateTime) : PyDateTime :=
  match k with
  | 0 => dt
  | k + 1 => prevDay (subDays k dt)

/-- Days since 1970-01-01 of a civil date, proleptic Gregorian (the
days-from-civil algorithm with floor division). -/
def rataDie (y m d : Int) : Int :=
  let yAdj := if m ≤ 2 then y - 1 else y
  let era := yAdj / 400
  let yoe := yAdj - era * 400
  let mp := (m + 9) % 12
  let doy := (153 * mp + 2) / 5 + d - 1
  let doe := yoe * 365 + yoe / 4 - yoe / 100 + doy
  era * 146097 + doe - 719468

/-- datetime.weekday(): Monday = 0 ... Sunday = 6 (1970-01-01 was a
Thursday). -/
def pyWeekday (dt : PyDateTime) : Int := (rataDie dt.year dt.month dt.day + 3) % 7

/-- dateutil relativedelta(months=k) added to a datetime: shift the linear
month index, clamp the day to the target month's length, keep the time. -/
def addMonths (dt : PyDateTime) (k : Int) : PyDateTime :=
  let total := dt.year * 12 + (dt.month - 1) + k
  let y := total / 12
  let m := total % 12 + 1
  { dt with year := y, month := m, day := min dt.day (daysInMonth y m) }

/-- MongoDBQueryEngine.get_time_range_query, test.py lines 466-512: the
(start, end) pair of the branch taken for the given time_range, or the
ValueError of the final else.  today stands for datetime.now().  Python's
datetime constructor would additionally raise beyond year 9999; that
ceiling is left out of the model (datetime.now() is always far below
it). -/
def timeRangeBounds (today : PyDateTime) (time_range : String) :
    Except PyError (PyDateTime × PyDateTime) :=
  if time_range = "today" then
    let start_date := mkDate today.year today.month today.day
    .ok (start_date, addDays 1 start_date)
  else if time_range = "yesterday" then
    let start_date := prevDay (mkDate today.year today.month today.day)
    .ok (start_date, addDays 1 start_date)
  else if time_range = "this_week" then
    let sd := subDays (pyWeekday today).toNat today
    let start_date := mkDate sd.year sd.month sd.day
    .ok (start_date, addDays 7 start_date)
  else if time_range = "last_week" then
    let sd := subDays ((pyWeekday today).toNat + 7) today
    let start_date := mkDate sd.year sd.month sd.day
    .ok (start_date, addDays 7 start_date)
  else if time_range = "this_month" then
    let start_date := mkDate today.year today.month 1
    let end_date :=
      if today.month = 12 then mkDate (today.year + 1) 1 1
      else mkDate today.year (today.month + 1) 1
    .ok (start_date, end_date)
  else if time_range = "last_month" then
    if today.month = 1 then
      .ok (mkDate (today.year - 1) 12 1, mkDate today.year 1 1)
    else
      .ok (mkDate today.year (today.month - 1) 1, mkDate today.year today.month 1)
  else if time_range = "last_6_months" then
    let sixMonthsAgo := addMonths today (-6)
    let start_date := mkDate sixMonthsAgo.year sixMonthsAgo.month 1
    let end_date := addMonths (mkDate today.year today.month 1) 1
    .ok (start_date, end_date)
  else if time_range = "this_year" then
    .ok (mkDate today.year 1 1, mkDate (today.year + 1) 1 1)
  else if time_range = "last_year" then
    .ok (mkDate (today.year - 1) 1 1, mkDate today.year 1 1)
  else
    .error (.valueError ("Unsupported time range: " ++ time_range))

/-- get_time_range_query itself: the dict the method returns,
holding the range bounds under $gte and $lt. -/
def get_time_range_query (today : PyDateTime) (time_range : String) :
    Except PyError BVal :=
  (timeRangeBounds today time_range).map
    (fun p => .vobj [("$gte", .vdt p.1), ("$lt", .vdt p.2)])

/-! ## `_handle_date_in_query` (test.py lines 337-398) -/

/-- Value of an ASCII digit. -/
def parseDigit (c : Char) : Option Nat :=
  if c.isDigit then some (c.toNat - 48) else none

/-- Calendar validity of the datetime(y, m, d) constructor call: out-of-range
fields raise ValueError (the 9999 ceiling again left out). -/
def validYMD (y m d : Int) : Bool :=
  1 ≤ y && 1 ≤ m && m ≤ 12 && 1 ≤ d && d ≤ daysInMonth y m

/-- Two ASCII digits as a number. -/
def parse2 (a b : Char) : Option Int := do
  let x ← parseDigit a
  let y ← parseDigit b
  some (x * 10 + y : Int)

/-- The optional ISO offset tail +HH:MM or -HH:MM, optionally :SS: some ()
when it is well formed (or absent), none otherwise. -/
def parseIsoOffset (cs : List Char) : Option Unit :=
  match cs with
  | [] => some ()
  | sgn :: o1 :: o2 :: ':' :: o3 :: o4 :: tr =>
    if sgn = '+' ∨ sgn = '-' then do
      let oh ← parse2 o1 o2
      let om ← parse2 o3 o4
      if 23 < oh ∨ 59 < om then none
      else
        match tr with
        | [] => some ()
        | ':' :: p1 :: p2 :: [] => do
            let sv ← parse2 p1 p2
            if 59 < sv then none else some ()
        | _ => none
    else none
  | _ => none

/-- The optional seconds-and-fraction tail of an ISO time: the seconds
value and the rest. -/
def parseIsoSeconds (cs : List Char) : Option (Int × List Char) :=
  match cs with
  | ':' :: s1 :: s2 :: tr => do
      let sv ← parse2 s1 s2
      if 59 < sv then none
      else
        match tr with
        | '.' :: tr2 =>
            let frac := tr2.takeWhile Char.isDigit
            if 1 ≤ frac.length ∧ frac.length ≤ 6 then
              some (sv, tr2.dropWhile Char.isDigit)
            else none
        | _ => some (sv, tr)
  | _ => some ((0 : Int), cs)

/-- The ISO time-of-day part HH:MM[:SS[.ffffff]][offset]. -/
def parseIsoTime (cs : List Char) : Option (Int × Int × Int) :=
  match cs with
  | h1 :: h2 :: ':' :: mi1 :: mi2 :: tr => do
      let hh ← parse2 h1 h2
      let mi ← parse2 mi1 mi2
      if 23 < hh ∨ 59 < mi then none
      else do
        let (sec, tr2) ← parseIsoSeconds tr
        let _ ← parseIsoOffset tr2
        some (hh, mi, sec)
  | _ => none

/-- Model of datetime.fromisoformat on the formats the engine can meet:
YYYY-MM-DD, optionally a T or space separator and HH:MM[:SS[.ffffff]],
optionally a +HH:MM[:SS] or -HH:MM[:SS] offset (the offset is validated
and dropped: no claim observes timezones).  Anything else fails, as
fromisoformat raises ValueError. -/
def pyFromIso (s : String) : Option PyDateTime :=
  match s.data with
  | y1 :: y2 :: y3 :: y4 :: '-' :: mo1 :: mo2 :: '-' :: d1 :: d2 :: rest => do
      let yh ← parse2 y1 y2
      let yl ← parse2 y3 y4
      let mo ← parse2 mo1 mo2
      let dd ← parse2 d1 d2
      let y : Int := yh * 100 + yl
      if ¬ validYMD y mo dd then none
      else
        match rest with
        | [] => some ⟨y, mo, dd, 0, 0, 0⟩
        | sep :: tr =>
          if sep = 'T' ∨ sep = ' ' then do
            let (hh, mi, sec) ← parseIsoTime tr
            some ⟨y, mo, dd, hh, mi, sec⟩
          else do
            -- a bare offset directly after the date, e.g. 2023-01-02+00:00
            let _ ← parseIsoOffset rest
            some ⟨y, mo, dd, 0, 0, 0⟩
  | _ => none

/-- Whether a char list ends with the given literal. -/
def endsWithCL (cs suf : List Char) : Bool :=
  startsWithCL cs.reverse suf.reverse

/-- Python str.split(",") on a char list. -/
def splitCommaCL : List Char → List (List Char)
  | [] => [[]]
  | c :: rest =>
      let r := splitCommaCL rest
      if c = ',' then [] :: r
      else
        match r with
        | h :: t => (c :: h) :: t
        | [] => [[c]]

/-- Python s.replace("Z", "+00:00"): every Z expands to the UTC offset. -/
def replaceZ (cs : List Char) : List Char :=
  cs.foldr
    (fun c acc =>
      if c = 'Z' then '+' :: '0' :: '0' :: ':' :: '0' :: '0' :: acc else c :: acc)
    []

/-- Python int(s) on a char list: optional surrounding whitespace, optional
sign, a nonempty digit run; anything else raises ValueError (none here). -/
def pyIntCL (cs0 : List Char) : Option Int :=
  let cs := pyStripList cs0
  let (sign, ds) := match cs with
    | '-' :: rest => ((-1 : Int), rest)
    | '+' :: rest => ((1 : Int), rest)
    | _ => ((1 : Int), cs)
  if ds.isEmpty ∨ ¬ ds.all Char.isDigit then none
  else some (sign * (digitsToNat ds : Int))

/-- Lines 366-371 and 383-386: strip one layer of matching double quotes,
then one layer of matching single quotes, each as Python's
startswith/endswith test plus the [1:-1] slice. -/
def stripQuotePairCL (q : Char) (cs : List Char) : List Char :=
  if (match cs with | c :: _ => c = q | [] => false) && cs.getLast? = some q then
    (cs.drop 1).dropLast
  else cs

/-- Both quote-stripping steps in the code's order. -/
def stripQuotesCL (cs : List Char) : List Char :=
  stripQuotePairCL '\x27' (stripQuotePairCL '"' cs)

/-- Lines 354-376, the "new Date(...)" pattern: some datetime when the
branch returns one, none both when the pattern does not apply and when its
try block falls through (bad int, too few arguments, invalid date). -/
def tryNewDateString (now : PyDateTime) (s : String) : Option PyDateTime :=
  let cs := s.data
  if startsWithCL cs ("new Date(").data ∧ endsWithCL cs [')'] then
    let args_str := (cs.drop 9).dropLast
    if args_str.isEmpty then some now
    else if args_str.contains ',' then
      match (splitCommaCL args_str).mapM pyIntCL with
      | some args =>
          if 3 ≤ args.length then
            -- MongoDB months are 0-indexed: datetime(args[0], args[1]+1, args[2])
            let y := args.getD 0 0
            let mo := args.getD 1 0 + 1
            let d := args.getD 2 0
            if validYMD y mo d then some (mkDate y mo d) else none
          else none
      | none => none
    else
      pyFromIso (String.mk (replaceZ (stripQuotesCL args_str)))
  else none

/-- Lines 378-389, the "ISODate(...)" pattern. -/
def tryISODateString (s : String) : Option PyDateTime :=
  let cs := s.data
  if startsWithCL cs ("ISODate(").data ∧ endsWithCL cs [')'] then
    pyFromIso (String.mk (replaceZ (stripQuotesCL ((cs.drop 8).dropLast))))
  else none

/-- The early-return tests the loop body of `_handle_date_in_query` applies
to a string-valued entry, in the code's order: the $date-keyed ISO parse
(lines 345-350), then "new Date(...)", then "ISODate(...)". -/
def entryTrigger (now : PyDateTime) (k s : String) : Option PyDateTime :=
  match (if k = "$date" then pyFromIso (String.mk (replaceZ s.data)) else none) with
  | some dt => some dt
  | none =>
      match tryNewDateString now s with
      | some dt => some dt
      | none => tryISODateString s

mutual
/-- MongoDBQueryEngine._handle_date_in_query, test.py lines 337-398. -/
def handle_date_in_query (now : PyDateTime) : BVal → BVal
  | .vobj entries => handleObjLoop now entries []
  | .varr items => .varr (handleListItems now items)
  | q => q

/-- The dict loop (lines 340-393): rewrite dict and list values in place,
return the parsed datetime itself, in place of the whole dict, as soon as
a string value triggers; after a full pass set a present $currentDate key
to True (line 392-393). -/
def handleObjLoop (now : PyDateTime) :
    List (String × BVal) → List (String × BVal) → BVal
  | [], acc =>
      .vobj (if dictContains acc "$currentDate" then
        dictSet acc "$currentDate" (.vbool true) else acc)
  | (k, v) :: rest, acc =>
      match v with
      | .vobj _ => handleObjLoop now rest (acc ++ [(k, handle_date_in_query now v)])
      | .varr _ => handleObjLoop now rest (acc ++ [(k, handle_date_in_query now v)])
      | .vstr s =>
          match entryTrigger now k s with
          | some dt => .vdt dt
          | none => handleObjLoop now rest (acc ++ [(k, v)])
      | _ => handleObjLoop now rest (acc ++ [(k, v)])

/-- The list comprehension of lines 344 and 396. -/
def handleListItems (now : PyDateTime) : List BVal → List BVal
  | [] => []
  | item :: rest =>
      (match item with
       | .vobj _ => handle_date_in_query now item
       | .varr _ => handle_date_in_query now item
       | o => o) :: handleListItems now rest
end

/-! ## `execute_query` (test.py lines 400-464) -/

/-- The pymongo collection operations execute_query invokes, abstracted:
each call either returns its result or raises some exception.  find returns
the full matching sequence in cursor order (execute_query applies the
limit). -/
structure MongoCollection where
  find : BVal → Except PyError (List BVal)
  aggregate : List BVal → Except PyError (List BVal)
  count_documents : BVal → Except PyError Int
  distinct : String → BVal → Except PyError (List BVal)

/-- Line 428: whether a dict stage has a $limit key whose value is not
None (stage.get of a missing key also yields None). -/
def stageHasLimitNonNone (stage : BVal) : Bool :=
  match stage with
  | .vobj m =>
      match dictLookup m "$limit" with
      | some .vnone => false
      | some _ => true
      | none => false
  | _ => false

/-- Lines 428-430: the pipeline as executed, with the safety stage
appended when no dict stage carries a non-None $limit. -/
def effectivePipeline (stages : List BVal) : List BVal :=
  if stages.any stageHasLimitNonNone then stages
  else stages ++ [.vobj [("$limit", .vint 50)]]

/-- Whether a pipeline stage is a dict containing a $limit key at all. -/
def stageHasLimitKey (stage : BVal) : Bool :=
  match stage with
  | .vobj m => dictContains m "$limit"
  | _ => false

/-- Python truthiness of the engine's values ("if not field"); a float
token is treated as truthy (the engine never produces a float field
name). -/
def pyTruthy (v : BVal) : Bool :=
  match v with
  | .vnone => false
  | .vbool b => b
  | .vint i => i ≠ 0
  | .vstr s => s ≠ ""
  | .varr items => ¬ items.isEmpty
  | .vobj entries => ¬ entries.isEmpty
  | _ => true

/-- Wrap any exception of the try block (lines 416-462) as the
RuntimeError of line 463-464. -/
def wrapQueryError (r : Except PyError BVal) : Except PyError BVal :=
  match r with
  | .ok v => .ok v
  | .error e => .error (.runtimeError ("Error executing query: " ++ e.message))

/-- The try block of execute_query (lines 416-461), dispatching on the
lower-cased query_type: find with the 50-document cursor limit, aggregate
with the safety $limit stage, count, distinct (whose missing-field
ValueError is raised inside this same block), and the final unsupported
ValueError.  In the aggregate branch a non-list query raises (iteration or
.append) and in the distinct branch a non-dict query raises .get
AttributeError, and a truthy non-string field makes pymongo's distinct
raise TypeError, all inside this block. -/
def execute_query_body (coll : MongoCollection) (query_type : String)
    (query explanation : BVal) : Except PyError BVal :=
  if query_type = "find" then
    match coll.find query with
    | .error e => .error e
    | .ok docs =>
        let results := docs.take 50
        .ok (.vobj [("count", .vint results.length),
          ("results", .varr (bsonRoundTripList results)),
          ("explanation", explanation)])
  else if query_type = "aggregate" then
    match query with
    | .varr stages =>
      match coll.aggregate (effectivePipeline stages) with
      | .error e => .error e
      | .ok results =>
          .ok (.vobj [("count", .vint results.length),
            ("results", .varr (bsonRoundTripList results)),
            ("explanation", explanation)])
    | _ => .error (.attributeError "object has no attribute append")
  else if query_type = "count" then
    match coll.count_documents query with
    | .error e => .error e
    | .ok n =>
        .ok (.vobj [("count", .vint n), ("explanation", explanation)])
  else if query_type = "distinct" then
    match query with
    | .vobj qm =>
      let field := dictGetD qm "field" .vnone
      let filter_query := dictGetD qm "filter" (.vobj [])
      if ¬ pyTruthy field then
        .error (.valueError "'field' is required for distinct queries")
      else
        match field with
        | .vstr fieldName =>
          match coll.distinct fieldName filter_query with
          | .error e => .error e
          | .ok values =>
              .ok (.vobj [("count", .vint values.length),
                ("values", .varr values),
                ("explanation", explanation)])
        | _ => .error (.typeError "key must be an instance of str")
    | _ => .error (.attributeError "object has no attribute get")
  else
    .error (.valueError ("Unsupported query type: " ++ query_type))

/-- MongoDBQueryEngine.execute_query, test.py lines 400-464, for a given
current collection (none models self.current_collection unset) and
datetime.now().  query_data is the parsed LLM output; on a non-dict the
first .get call raises AttributeError before the try block, as in the
source, and a non-string query_type raises AttributeError at .lower(),
also before the try block.  Everything the try block raises is re-raised
as the RuntimeError of line 463-464. -/
def execute_query (current : Option MongoCollection) (now : PyDateTime)
    (query_data : BVal) : Except PyError BVal :=
  match current with
  | none => .error (.valueError "No collection selected")
  | some coll =>
    match query_data with
    | .vobj qd =>
      match dictGetD qd "query_type" (.vstr "") with
      | .vstr qt0 =>
        let query_type := pyLower qt0
        let query0 := dictGetD qd "query" (.vobj [])
        let explanation := dictGetD qd "explanation" (.vstr "")
        let query := handle_date_in_query now query0
        wrapQueryError (execute_query_body coll query_type query explanation)
      | _ => .error (.attributeError "object has no attribute lower")
    | _ => .error (.attributeError "object has no attribute get")

/-! ## Schema analysis (test.py `_analyze_collection` lines 76-107 and
`_analyze_document` lines 109-138) -/

/-- The per-field record `_analyze_document` builds: the set of type names
seen (a Python set, modelled as a duplicate-free list in insertion order)
and up to three example strings. -/
structure FieldInfo where
  types : List String
  examples : List String
  deriving DecidableEq, Repr

/-- The fields dict: field name (dotted path) to its record. -/
abbrev Fields := List (String × FieldInfo)

/-- Lines 118-123: the type label of a value: datetime for
datetime.datetime, objectid for bson ObjectId, else type(value).__name__.
(datetime.date values, which would be labelled date, cannot occur in
documents a pymongo find returns, so BVal has no constructor for them.) -/
def typeName : BVal → String
  | .vstr _ => "str"
  | .vint _ => "int"
  | .vnum _ => "float"
  | .vbool _ => "bool"
  | .vnone => "NoneType"
  | .vdt _ => "datetime"
  | .vobjid _ => "objectid"
  | .varr _ => "list"
  | .vobj _ => "dict"

/-- Python set.add on the insertion-ordered list model. -/
def setInsert (l : List String) (x : String) : List String :=
  if x ∈ l then l else l ++ [x]

/-- First-occurrence lookup among the fields. -/
def fieldsLookup : Fields → String → Option FieldInfo
  | [], _ => none
  | (k, v) :: rest, key => if k = key then some v else fieldsLookup rest key

/-- Whether a field name is present. -/
def fieldsContains (fs : Fields) (key : String) : Bool :=
  (fieldsLookup fs key).isSome

/-- Update the record at the first occurrence of a present key in place. -/
def fieldsUpdate : Fields → String → (FieldInfo → FieldInfo) → Fields
  | [], _, _ => []
  | (k, v) :: rest, key, g =>
      if k = key then (k, g v) :: rest else (k, v) :: fieldsUpdate rest key g

/-- Lines 114-115: create the empty record for a new field name. -/
def fieldsEnsure (fs : Fields) (name : String) : Fields :=
  if fieldsContains fs name then fs else fs ++ [(name, ⟨[], []⟩)]

/-- Lines 114-129 for one (key, value) entry: ensure the record, add the
type label, and append one example string when the field is not _id and
fewer than three examples are stored. -/
def recordEntry (fs : Fields) (name : String) (v : BVal) : Fields :=
  fieldsUpdate (fieldsEnsure fs name) name fun info =>
    let info := { info with types := setInsert info.types (typeName v) }
    if name ≠ "_id" ∧ info.examples.length < 3 then
      { info with examples := info.examples ++ [pyStr v] }
    else info

mutual
/-- MongoDBQueryEngine._analyze_document, test.py lines 109-138: fold the
entries of a document into the fields dict, recursing into nested dicts
with a dotted name and into the first element of a nonempty list of dicts
with a bracketed name. -/
def analyze_document (pre : String) : List (String × BVal) → Fields → Fields
  | [], fs => fs
  | (key, v) :: rest, fs =>
      analyze_document pre rest
        (analyzeValue (pre ++ key) v (recordEntry fs (pre ++ key) v))

/-- Lines 131-138 for one entry value: recurse into a dict value under
name., and into a list value under name.[]. -/
def analyzeValue (fieldName : String) : BVal → Fields → Fields
  | .vobj inner, fs => analyze_document (fieldName ++ ".") inner fs
  | .varr items, fs => analyzeArrayHead (fieldName ++ "[].") items fs
  | _, fs => fs

/-- Lines 136-138: recurse into the first array element when it is a
dict. -/
def analyzeArrayHead (pre : String) : List BVal → Fields → Fields
  | item :: _, fs => analyzeHeadVal pre item fs
  | [], fs => fs

/-- The first array element contributes its entries only when a dict. -/
def analyzeHeadVal (pre : String) : BVal → Fields → Fields
  | .vobj inner, fs => analyze_document pre inner fs
  | _, fs => fs
end

mutual
/-- The dotted field names `_analyze_document` records for one document:
each entry's prefixed key, the paths of a dict value under name., and the
paths of the first element of a list of dicts under name.[]. -/
def docPaths (pre : String) : List (String × BVal) → List String
  | [] => []
  | (key, v) :: rest =>
      ((pre ++ key) :: valPaths (pre ++ key) v) ++ docPaths pre rest

/-- Paths contributed by one entry value below its own name. -/
def valPaths (fieldName : String) : BVal → List String
  | .vobj inner => docPaths (fieldName ++ ".") inner
  | .varr items => arrayHeadPaths (fieldName ++ "[].") items
  | _ => []

/-- Paths contributed by the first array element when it is a dict. -/
def arrayHeadPaths (pre : String) : List BVal → List String
  | item :: _ => headValPaths pre item
  | [] => []

/-- Paths of the first array element: only a dict contributes. -/
def headValPaths (pre : String) : BVal → List String
  | .vobj inner => docPaths pre inner
  | _ => []
end

/-- The collection metadata `_analyze_collection` caches. -/
structure CollMeta where
  total_documents : Int
  fields : Fields
  sample_document : BVal
  date_fields : Option (List String)

/-- Lines 102-104: the fields whose types contain datetime or date. -/
def dateFieldsOf (fs : Fields) : List String :=
  (fs.filter fun p => p.2.types.contains "datetime" || p.2.types.contains "date").map
    Prod.fst

/-- MongoDBQueryEngine._analyze_collection, test.py lines 76-107, given the
total count and the sampled documents (each a dict): fold the sample
through `_analyze_document`, convert the type sets to lists (the identity
on the list model), store the metadata, and record date_fields exactly when
some field's types contain datetime or date. -/
def analyze_collection (total : Int) (docs : List (List (String × BVal))) :
    CollMeta :=
  let fs := docs.foldl (fun acc doc => analyze_document "" doc acc) []
  let dfs := dateFieldsOf fs
  { total_documents := total
    fields := fs
    sample_document :=
      match docs with
      | doc :: _ => bsonRoundTrip (.vobj doc)
      | [] => .vobj []
    date_fields := if dfs.isEmpty then none else some dfs }

/-! ## `Database` (common/database.py) -/

/-- The underlying pymongo client calls Database wraps: each either
returns or raises. -/
structure PyMongoClient where
  findRaw : String → BVal → Option BVal → Except PyError (List BVal)
  findOneRaw : String → BVal → Option BVal → Except PyError (Option BVal)

/-- Database.find, common/database.py lines 33-41: list the matching
documents; any exception from the library call is caught and the empty
list returned.  The Except result type records that the method itself can
still only return normally. -/
def Database.find (c : PyMongoClient) (collection_name : String)
    (query : BVal := .vobj []) (projection : Option BVal := none) :
    Except PyError (List BVal) :=
  match c.findRaw collection_name query projection with
  | .ok results => .ok results
  | .error _ => .ok []

/-- Database.find_one, common/database.py lines 43-51: the single matching
document or None; any exception is caught and None returned. -/
def Database.find_one (c : PyMongoClient) (collection_name : String)
    (query : BVal := .vobj []) (projection : Option BVal := none) :
    Except PyError (Option BVal) :=
  match c.findOneRaw collection_name query projection with
  | .ok result => .ok result
  | .error _ => .ok none

/-! ## The engine state and its commands (test.py MongoDBQueryEngine) -/

/-- str.join. -/
def joinStr (sep : String) : List String → String
  | [] => ""
  | [x] => x
  | x :: rest => x ++ sep ++ joinStr sep rest

/-- Python str.title() (ASCII): uppercase the first letter of each
alphabetic run, lowercase the rest. -/
def pyTitleGo : List Char → Bool → List Char
  | [], _ => []
  | c :: rest, prevAlpha =>
      (if c.isAlpha then (if prevAlpha then c.toLower else c.toUpper) else c) ::
        pyTitleGo rest c.isAlpha

/-- Python str.title(). -/
def pyTitle (s : String) : String := String.mk (pyTitleGo s.data false)

/-- period.replace(an underscore, a space). -/
def underscoreToSpace (s : String) : String :=
  String.mk (s.data.map fun c => if c = '_' then ' ' else c)

/-- Python d[k] on a value: the entry of a dict, KeyError when absent,
TypeError on a non-dict. -/
def bvalIndex (v : BVal) (k : String) : Except PyError BVal :=
  match v with
  | .vobj m =>
      match dictLookup m k with
      | some x => .ok x
      | none => .error (.keyError k)
  | _ => .error (.typeError "value is not subscriptable by str")

/-- A Python format spec 02d applied to a value: ints format, everything
else raises. -/
def fmt02 (v : BVal) : Except PyError String :=
  match v with
  | .vint i => .ok (pad2 i)
  | _ => .error (.typeError "unsupported format string")

/-- The MongoDBQueryEngine state and its effectful collaborators: the
database client calls and the LLM call are abstracted as functions that
either return or raise. -/
structure Engine where
  database_name : String
  dbCollectionNames : List String
  collections : List (String × CollMeta)
  current_collection : Option String
  countDocuments : String → Except PyError Int
  sampleDocs : String → Except PyError (List (List (String × BVal)))
  llm : String → Except PyError String
  collFind : String → BVal → Except PyError (List BVal)
  collAggregate : String → List BVal → Except PyError (List BVal)
  collCount : String → BVal → Except PyError Int
  collDistinct : String → String → BVal → Except PyError (List BVal)
  now : PyDateTime

/-- Lookup in the schema cache. -/
def metaLookup : List (String × CollMeta) → String → Option CollMeta
  | [], _ => none
  | (k, v) :: rest, key => if k = key then some v else metaLookup rest key

/-- Assignment into the schema cache (same semantics as dictSet). -/
def metaSet : List (String × CollMeta) → String → CollMeta →
    List (String × CollMeta)
  | [], key, v => [(key, v)]
  | (k, w) :: rest, key, v =>
      if k = key then (k, v) :: rest else (k, w) :: metaSet rest key v

/-- The MongoCollection view of the engine's current collection, fed to
execute_query. -/
def currentMongoCollection (e : Engine) : Option MongoCollection :=
  e.current_collection.map fun name =>
    ⟨e.collFind name, e.collAggregate name, e.collCount name, e.collDistinct name⟩

/-- MongoDBQueryEngine.set_current_collection, test.py lines 140-150: an
unknown name is analyzed when the database has it and rejected with
ValueError otherwise; the success message reads the cached document
count. -/
def set_current_collection (e : Engine) (collection_name : String) :
    Except PyError (String × Engine) := do
  let e1 ←
    if (metaLookup e.collections collection_name).isSome then .ok e
    else if collection_name ∈ e.dbCollectionNames then do
      let total ← e.countDocuments collection_name
      let docs ← e.sampleDocs collection_name
      let cache := metaSet e.collections collection_name (analyze_collection total docs)
      .ok { e with collections := cache }
    else
      .error (.valueError ("Collection '" ++ collection_name ++
        "' does not exist in the database"))
  let e2 := { e1 with current_collection := some collection_name }
  let total :=
    match metaLookup e2.collections collection_name with
    | some meta => meta.total_documents
    | none => 0
  .ok ("Current collection set to: " ++ collection_name ++ " (" ++
    pyIntStr total ++ " documents)", e2)

/-- MongoDBQueryEngine.list_collections, test.py lines 152-159. -/
def list_collections (e : Engine) : List String :=
  e.collections.map fun p =>
    p.1 ++ " (" ++ pyIntStr p.2.total_documents ++ " documents)"

/-- One line of get_collection_schema's output. -/
def schemaLine (field : String) (info : FieldInfo) : String :=
  let types_str := joinStr ", " info.types
  let examples_str :=
    if info.examples.isEmpty then "N/A"
    else joinStr ", " (info.examples.map fun ex => "'" ++ ex ++ "'")
  "Field: " ++ field ++ ", Types: " ++ types_str ++ ", Examples: " ++ examples_str

/-- MongoDBQueryEngine.get_collection_schema, test.py lines 161-177 (the
collection_name argument is None at every call site in ask). -/
def get_collection_schema (e : Engine) (collection_name : Option String) :
    Except PyError (List String) :=
  let col_name :=
    match collection_name with
    | some n => if n = "" then e.current_collection else some n
    | none => e.current_collection
  match col_name with
  | none => .error (.valueError "No collection specified and no current collection set")
  | some col =>
    match metaLookup e.collections col with
    | none => .error (.valueError ("Collection '" ++ col ++ "' not found"))
    | some meta => .ok (meta.fields.map fun p => schemaLine p.1 p.2)

/-! ## `generate_mongodb_query` and the trend-analysis path -/

/-- One line of the prompt's field list (lines 224-227). -/
def fieldInfoLine (field : String) (info : FieldInfo) : String :=
  "- " ++ field ++ " (types: " ++ joinStr ", " info.types ++ ", examples: " ++
    (if info.examples.isEmpty then "N/A" else joinStr ", " info.examples) ++ ")"

/-- The trend guidance block (lines 230-239), inserted when the cached
metadata records date fields. -/
def trendGuidance (info : CollMeta) : String :=
  match info.date_fields with
  | some dfs =>
      if dfs.isEmpty then ""
      else
        "\nFor time-series or trend analysis:\n" ++
        "- Available date fields: " ++ joinStr ", " dfs ++ "\n" ++
        "- For current month, use: \x7b $gte: new Date(new Date().getFullYear(), " ++
        "new Date().getMonth(), 1), $lt: new Date(new Date().getFullYear(), " ++
        "new Date().getMonth()+1, 1) \x7d\n" ++
        "- Avoid using $dateFromString with format specifiers - use simpler " ++
        "date expressions like ISODate()\n" ++
        "- For aggregations by time period, use $group with date operators " ++
        "like $dayOfMonth, $month, $year\n"
  | none => ""

/-- The query-generation prompt (lines 242-279); the surrounding prose is
carried over with its interpolations, leading indentation normalized. -/
def buildQueryPrompt (database_name collection_name : String) (info : CollMeta)
    (question : String) : String :=
  "You are a MongoDB query expert. Generate a MongoDB query or aggregation " ++
  "pipeline to answer the following question.\n\n" ++
  "Database: " ++ database_name ++ "\n" ++
  "Collection: " ++ collection_name ++ "\n" ++
  "Total documents: " ++ pyIntStr info.total_documents ++ "\n\n" ++
  "Collection fields:\n" ++
  joinStr "\n" (info.fields.map fun p => fieldInfoLine p.1 p.2) ++ "\n\n" ++
  "Sample document:\n" ++ pyStr info.sample_document ++ "\n" ++
  trendGuidance info ++ "\n" ++
  "User question: " ++ question ++ "\n\n" ++
  "Important guidelines:\n" ++
  "1. For time trends, use standard MongoDB date operators like $dayOfMonth, " ++
  "$month, $year in $group stages\n" ++
  "2. Avoid complex date format strings in $dateToString or $dateFromString\n" ++
  "3. For date comparisons, use ISODate() or new Date() expressions\n" ++
  "4. For trend analysis, use $group and $sort on time periods\n" ++
  "5. Ensure all operators use proper MongoDB syntax\n\n" ++
  "Generate ONLY the MongoDB query or aggregation pipeline as a JSON object " ++
  "with these fields:\n" ++
  "- query_type: 'find', 'aggregate', 'count', or 'distinct'\n" ++
  "- query: The query object or pipeline array\n" ++
  "- explanation: Brief explanation of what the query does\n\n" ++
  "Format:\n```json\n\x7b\n\x22query_type\x22: \x22find|aggregate|count|distinct\x22,\n" ++
  "\x22query\x22: \x7b...\x7d or [...],\n\x22explanation\x22: \x22...\x22\n\x7d\n```\n"

/-- MongoDBQueryEngine.generate_mongodb_query, test.py lines 213-336:
require a current collection, read its cached metadata (a missing cache
entry is the KeyError of the dict access), build the prompt, invoke the
LLM, and run the JSON-extraction step on the response text. -/
def generate_mongodb_query (e : Engine) (question : String) :
    Except PyError BVal :=
  match e.current_collection with
  | none =>
      .error (.valueError "No collection selected. Please select a collection first.")
  | some name =>
    match metaLookup e.collections name with
    | none => .error (.keyError name)
    | some info => do
        let response_text ← e.llm (buildQueryPrompt e.database_name name info question)
        extract_query_data response_text

/-- The trend keywords of process_analytical_question (line 613). -/
def trendKeywords : List String :=
  ["trend", "over time", "monthly", "weekly", "daily", "comparison",
   "historical", "history", "pattern"]

/-- The $group _id and sort-key list for a grouping level
(_generate_trend_analysis lines 652-672). -/
def trendGroupSpec (date_field group_by : String) : BVal × List String :=
  if group_by = "day" then
    (.vobj [("year", .vobj [("$year", .vstr ("$" ++ date_field))]),
            ("month", .vobj [("$month", .vstr ("$" ++ date_field))]),
            ("day", .vobj [("$dayOfMonth", .vstr ("$" ++ date_field))])],
     ["year", "month", "day"])
  else if group_by = "week" then
    (.vobj [("year", .vobj [("$year", .vstr ("$" ++ date_field))]),
            ("week", .vobj [("$week", .vstr ("$" ++ date_field))])],
     ["year", "week"])
  else
    (.vobj [("year", .vobj [("$year", .vstr ("$" ++ date_field))]),
            ("month", .vobj [("$month", .vstr ("$" ++ date_field))])],
     ["year", "month"])

/-- One formatted data line of the trend report (lines 713-722). -/
def formatTrendItem (group_by : String) (item : BVal) :
    Except PyError String := do
  let idv ← bvalIndex item "_id"
  let cnt ← bvalIndex item "count"
  let date_str ←
    if group_by = "day" then do
      let y ← bvalIndex idv "year"
      let m ← bvalIndex idv "month"
      let d ← bvalIndex idv "day"
      let ms ← fmt02 m
      let ds ← fmt02 d
      .ok (pyStr y ++ "-" ++ ms ++ "-" ++ ds)
    else if group_by = "week" then do
      let y ← bvalIndex idv "year"
      let w ← bvalIndex idv "week"
      .ok (pyStr y ++ " Week " ++ pyStr w)
    else do
      let y ← bvalIndex idv "year"
      let m ← bvalIndex idv "month"
      let ms ← fmt02 m
      .ok (pyStr y ++ "-" ++ ms)
  .ok ("  " ++ date_str ++ ": " ++ pyStr cnt ++ " portcalls\n")

/-- MongoDBQueryEngine._generate_trend_analysis, test.py lines 650-726:
build the pipeline per period, run it with a per-period try/except that
stores an error string, and format the report.  Formatting failures
(malformed aggregate items) escape, as the formatting loop sits outside
that try/except. -/
def generate_trend_analysis (e : Engine) (col date_field : String)
    (periods : List String) (group_by : String) : Except PyError String := do
  let (group_id, sort_order) := trendGroupSpec date_field group_by
  let sortDict : BVal := .vobj (sort_order.map fun f => ("_id." ++ f, .vint 1))
  let dateQueries ← periods.mapM fun p => do
    let b ← timeRangeBounds e.now p
    pure (p, b)
  let results := dateQueries.map fun pb =>
    let pipeline : List BVal :=
      [.vobj [("$match", .vobj [(date_field,
          .vobj [("$gte", .vdt pb.2.1), ("$lt", .vdt pb.2.2)])])],
       .vobj [("$group", .vobj [("_id", group_id),
          ("count", .vobj [("$sum", .vint 1)])])],
       .vobj [("$sort", sortDict)]]
    match e.collAggregate col pipeline with
    | .ok data => (pb.1, Sum.inl data)
    | .error err => (pb.1, Sum.inr ("Error: " ++ err.message))
  let body ← results.mapM fun pr =>
    match pr.2 with
    | .inr msg =>
        pure (pyTitle (underscoreToSpace pr.1) ++ ": " ++ msg ++ "\n\n")
    | .inl data => do
        let hdr := pyTitle (underscoreToSpace pr.1) ++ " (" ++
          pyIntStr data.length ++ " data points):\n"
        if data.isEmpty then pure (hdr ++ "  No data found for this period\n\n")
        else do
          let lines ← data.mapM (formatTrendItem group_by)
          pure (hdr ++ joinStr "" lines ++ "\n")
  .ok ("Trend analysis of " ++ col ++ " by " ++ group_by ++ "\n\n" ++
    joinStr "" body)

/-- MongoDBQueryEngine.process_analytical_question, test.py lines 605-648:
the trend report for a trend question over a collection with date fields,
none when the standard query path should run, and the fixed string when no
collection is selected. -/
def process_analytical_question (e : Engine) (question : String) :
    Except PyError (Option String) :=
  match e.current_collection with
  | none => .ok (some "No collection selected. Please select a collection first.")
  | some col =>
    match metaLookup e.collections col with
    | none => .error (.keyError col)
    | some info =>
      let ql := pyLower question
      let is_trend := trendKeywords.any fun kw => pyContainsSub ql kw
      match (if is_trend then info.date_fields else none) with
      | some (primary :: _) => do
          let p1 := if pyContainsSub ql "current month" ∨ pyContainsSub ql "this month"
            then ["this_month"] else []
          let p2 := if pyContainsSub ql "last month" ∨ pyContainsSub ql "previous month"
            then ["last_month"] else []
          let p3 := if pyContainsSub ql "last 6 months" ∨ pyContainsSub ql "past 6 months"
              ∨ pyContainsSub ql "previous 6 months"
            then ["last_6_months"] else []
          let periods0 := p1 ++ p2 ++ p3
          let periods := if periods0.isEmpty then ["this_month", "last_6_months"]
            else periods0
          let group_by :=
            if pyContainsSub ql "daily" ∨ pyContainsSub ql "day" then "day"
            else if pyContainsSub ql "weekly" ∨ pyContainsSub ql "week" then "week"
            else "month"
          let r ← generate_trend_analysis e col primary periods group_by
          .ok (some r)
      | _ => .ok none

/-! ## Statistics, result formatting and `ask` -/

/-- The per-field block of get_collection_stats (test.py lines 530-554). -/
def statFieldEntry (e : Engine) (col field : String) :
    Except PyError (String × BVal) := do
  let dvs ← e.collDistinct col field (.vobj [])
  let distinct_count : Int := dvs.length
  if distinct_count ≤ 15 then do
    let pipeline : List BVal :=
      [.vobj [("$group", .vobj [("_id", .vstr ("$" ++ field)),
          ("count", .vobj [("$sum", .vint 1)])])],
       .vobj [("$sort", .vobj [("count", .vint (-1))])],
       .vobj [("$limit", .vint 10)]]
    let distribution ← e.collAggregate col pipeline
    let distEntries ← distribution.mapM fun item => do
      let v ← bvalIndex item "_id"
      let c ← bvalIndex item "count"
      pure (BVal.vobj [("value", v), ("count", c)])
    pure (field, BVal.vobj [("distinct_values", .vint distinct_count),
      ("distribution", .varr distEntries)])
  else
    pure (field, BVal.vobj [("distinct_values", .vint distinct_count)])

/-- The time_stats block of get_collection_stats (test.py lines 556-601). -/
def statTimeEntry (e : Engine) (col primary : String) :
    Except PyError BVal := do
  let rangePipeline : List BVal :=
    [.vobj [("$group", .vobj [("_id", .vnone),
        ("min_date", .vobj [("$min", .vstr ("$" ++ primary))]),
        ("max_date", .vobj [("$max", .vstr ("$" ++ primary))])])]]
  let date_range ← e.collAggregate col rangePipeline
  let base : List (String × BVal) ←
    match date_range with
    | item :: _ => do
        let mn ← bvalIndex item "min_date"
        let mx ← bvalIndex item "max_date"
        pure [("date_range", BVal.vobj [("min", mn), ("max", mx)])]
    | [] => pure []
  let monthlyPipeline : List BVal :=
    [.vobj [("$match", .vobj [(primary,
        .vobj [("$gte", .vdt (addMonths e.now (-6)))])])],
     .vobj [("$group", .vobj [("_id",
        .vobj [("year", .vobj [("$year", .vstr ("$" ++ primary))]),
               ("month", .vobj [("$month", .vstr ("$" ++ primary))])]),
        ("count", .vobj [("$sum", .vint 1)])])],
     .vobj [("$sort", .vobj [("_id.year", .vint 1), ("_id.month", .vint 1)])]]
  let monthly ← e.collAggregate col monthlyPipeline
  if monthly.isEmpty then pure (.vobj base)
  else do
    let items ← monthly.mapM fun item => do
      let idv ← bvalIndex item "_id"
      let y ← bvalIndex idv "year"
      let m ← bvalIndex idv "month"
      let c ← bvalIndex item "count"
      pure (BVal.vobj [("year", y), ("month", m), ("count", c)])
    pure (.vobj (base ++ [("monthly_counts", BVal.varr items)]))

/-- MongoDBQueryEngine.get_collection_stats, test.py lines 514-603. -/
def get_collection_stats (e : Engine) (collection_name : Option String) :
    Except PyError BVal :=
  let col_name :=
    match collection_name with
    | some n => if n = "" then e.current_collection else some n
    | none => e.current_collection
  match col_name with
  | none => .error (.valueError "No collection specified and no current collection set")
  | some col => do
    let document_count ← e.countDocuments col
    let base : List (String × BVal) :=
      [("name", .vstr col), ("document_count", .vint document_count)]
    match metaLookup e.collections col with
    | none => .ok (.vobj (base ++ [("field_stats", .vobj [])]))
    | some meta => do
        let names := (meta.fields.map Prod.fst).filter fun n => n ≠ "_id"
        let fieldStats ← names.mapM (statFieldEntry e col)
        let withFields := base ++ [("field_stats", BVal.vobj fieldStats)]
        match meta.date_fields with
        | some (primary :: _) => do
            let ts ← statTimeEntry e col primary
            .ok (.vobj (withFields ++ [("time_stats", ts)]))
        | _ => .ok (.vobj withFields)

/-- One value line of the distribution block (_format_stats lines
826-829). -/
def distributionLine (item : BVal) : Except PyError String := do
  let v ← bvalIndex item "value"
  let c ← bvalIndex item "count"
  let vs := match v with | .vnone => "null" | other => pyStr other
  pure ("  * " ++ vs ++ ": " ++ pyStr c ++ " documents\n")

/-- The per-field block of _format_stats (lines 821-829). -/
def formatStatsField (p : String × BVal) : Except PyError String := do
  let dv ← bvalIndex p.2 "distinct_values"
  let base := "\nField: " ++ p.1 ++ "\n- Distinct values: " ++ pyStr dv ++ "\n"
  match p.2 with
  | .vobj m =>
      match dictLookup m "distribution" with
      | some (.varr items) => do
          let lines ← items.mapM distributionLine
          pure (base ++ "- Value distribution:\n" ++ joinStr "" lines)
      | some _ => .error (.typeError "distribution is not iterable")
      | none => pure base
  | _ => pure base

/-- The time-series block of _format_stats (lines 831-843). -/
def formatStatsTime (ts : BVal) : Except PyError String := do
  let dr ←
    match ts with
    | .vobj m =>
        match dictLookup m "date_range" with
        | some rng => do
            let mn ← bvalIndex rng "min"
            let mx ← bvalIndex rng "max"
            pure ("- Date range: " ++ pyStr mn ++ " to " ++ pyStr mx ++ "\n")
        | none => pure ""
    | _ => pure ""
  let mc ←
    match ts with
    | .vobj m =>
        match dictLookup m "monthly_counts" with
        | some (.varr items) => do
            let lines ← items.mapM fun item => do
              let y ← bvalIndex item "year"
              let mo ← bvalIndex item "month"
              let c ← bvalIndex item "count"
              let ms ← fmt02 mo
              pure ("  * " ++ pyStr y ++ "-" ++ ms ++ ": " ++ pyStr c ++
                " documents\n")
            pure ("- Monthly document counts:\n" ++ joinStr "" lines)
        | some _ => .error (.typeError "monthly_counts is not iterable")
        | none => pure ""
    | _ => pure ""
  pure ("\nTime-Series Analysis:\n" ++ dr ++ mc)

/-- MongoDBQueryEngine._format_stats, test.py lines 815-845. -/
def format_stats (stats : BVal) : Except PyError String := do
  let name ← bvalIndex stats "name"
  let dc ← bvalIndex stats "document_count"
  let fs ← bvalIndex stats "field_stats"
  let fsEntries ←
    match fs with
    | .vobj l => .ok l
    | _ => .error (.attributeError "field_stats has no items")
  let blocks ← fsEntries.mapM formatStatsField
  let timeBlock ←
    match stats with
    | .vobj m =>
        match dictLookup m "time_stats" with
        | some ts => formatStatsTime ts
        | none => pure ""
    | _ => pure ""
  pure ("Statistics for collection: " ++ pyStr name ++ "\n" ++
    "Total documents: " ++ pyStr dc ++ "\n\n" ++ "Field statistics:\n" ++
    joinStr "" blocks ++ timeBlock)

/-- The numbered document dump of _format_result (lines 804-807). -/
def numberedDocs : Nat → List BVal → String
  | _, [] => ""
  | i, d :: rest =>
      "Result " ++ pyIntStr (i + 1) ++ ":\n" ++ pyStr d ++ "\n\n" ++
        numberedDocs (i + 1) rest

/-- MongoDBQueryEngine._format_result, test.py lines 777-813. -/
def format_result (result : BVal) (_question : String) :
    Except PyError String :=
  match result with
  | .vobj m =>
    let expl := dictGetD m "explanation" (.vstr "Query executed successfully.")
    let r1 := pyStr expl ++ "\n\n"
    let r2 := r1 ++
      (match dictLookup m "count" with
       | some c => "Found " ++ pyStr c ++ " results.\n\n"
       | none => "")
    do
      let r3 ←
        match dictLookup m "values" with
        | some (.varr values) =>
            if values.length ≤ 20 then
              .ok (r2 ++ "Distinct values: " ++
                joinStr ", " (values.map pyStr) ++ "\n\n")
            else
              .ok (r2 ++ "First 10 distinct values: " ++
                joinStr ", " ((values.take 10).map pyStr) ++ "... (plus " ++
                pyIntStr ((values.length : Int) - 10) ++ " more)\n\n")
        | some _ => .error (.typeError "values has no len")
        | none => .ok r2
      match dictLookup m "results" with
      | some (.varr docs) =>
          if docs.isEmpty then .ok (r3 ++ "No matching documents found.\n")
          else if 5 < docs.length then
            .ok (r3 ++ "Showing first 5 of " ++ pyIntStr docs.length ++
              " results:\n\n" ++ numberedDocs 0 (docs.take 5))
          else .ok (r3 ++ numberedDocs 0 docs)
      | some other =>
          if pyTruthy other then .error (.typeError "results has no len")
          else .ok (r3 ++ "No matching documents found.\n")
      | none => .ok r3
  | _ => .error (.attributeError "result has no attribute get")

/-- The try block of ask (test.py lines 755-772): the analytical path when
it returns a truthy string, else generate, execute and format. -/
def askTryBody (e : Engine) (question : String) : Except PyError String := do
  let ana ← process_analytical_question e question
  match ana with
  | some s =>
      if s = "" then do
        let qd ← generate_mongodb_query e question
        let result ← execute_query (currentMongoCollection e) e.now qd
        format_result result question
      else .ok s
  | none => do
      let qd ← generate_mongodb_query e question
      let result ← execute_query (currentMongoCollection e) e.now qd
      format_result result question

/-- MongoDBQueryEngine.ask, test.py lines 728-775: the command dispatch
runs before (outside) the try/except, so set_current_collection's
ValueError and the schema/stats errors propagate; every error of the
query path itself is caught and turned into an "Error: ..." reply.  The
returned pair carries the reply and the engine state (only the use
collection command changes it). -/
def ask (e : Engine) (question : String) : Except PyError (String × Engine) :=
  let ql := pyLower question
  if startsWithCL ql.data ("use collection ").data then
    set_current_collection e (pyStrip (String.mk (question.data.drop 15)))
  else if ql = "list collections" then
    .ok ("Available collections:\n" ++ joinStr "\n" (list_collections e), e)
  else if ql = "show schema" ∨ ql = "describe collection" then
    match e.current_collection with
    | none => .ok ("No collection selected. Use 'use collection [name]' first.", e)
    | some col => do
        let schema ← get_collection_schema e none
        .ok ("Schema for " ++ col ++ ":\n" ++ joinStr "\n" schema, e)
  else if ql = "collection stats" ∨ ql = "stats" then
    match e.current_collection with
    | none => .ok ("No collection selected. Use 'use collection [name]' first.", e)
    | some _ => do
        let stats ← get_collection_stats e none
        let s ← format_stats stats
        .ok (s, e)
  else
    match e.current_collection with
    | none => .ok ("Please select a collection first using 'use collection [name]'", e)
    | some _ =>
        match askTryBody e question with
        | .ok s => .ok (s, e)
        | .error err => .ok ("Error: " ++ err.message, e)

/-! ## Predicates and fixtures used by the verification statements -/

/-- A strictly monotone linearization of valid civil dates (month at most
12, day at most 31), used to state that one date lies before another. -/
def dateVal (dt : PyDateTime) : Int := dt.year * 413 + dt.month * 31 + dt.day

/-- The date fields of a datetime are a calendar date (time unconstrained,
year unbounded: what prevDay and nextDay preserve). -/
def validDate (dt : PyDateTime) : Prop :=
  1 ≤ dt.month ∧ dt.month ≤ 12 ∧ 1 ≤ dt.day ∧ dt.day ≤ daysInMonth dt.year dt.month

instance (dt : PyDateTime) : Decidable (validDate dt) := by
  unfold validDate; infer_instance

/-- Whether a parsed LLM value survives the "query" membership test and
assignment of the fenced branch without an exception: a dict always, a
list or string only when the membership test is false. -/
def queryMembershipSafe (v : BVal) : Bool :=
  match v with
  | .vobj _ => true
  | .varr items =>
      ¬ (items.any fun x => match x with | .vstr s => s = "query" | _ => false)
  | .vstr s => ¬ pyContainsSub s "query"
  | _ => false

mutual
/-- No dict anywhere in the value holds a "$dateFromString" entry whose
value is a dict with both "dateString" and "format": on such values
`_fix_date_formats` is idempotent. -/
def noBadDFS : BVal → Bool
  | .vobj entries => noBadDFSObj entries
  | .varr items => noBadDFSList items
  | _ => true

/-- noBadDFS over dict entries. -/
def noBadDFSObj : List (String × BVal) → Bool
  | [] => true
  | (k, v) :: rest =>
      ¬ (k = "$dateFromString" ∧ isDictWithDateStringAndFormat v) &&
        noBadDFS v && noBadDFSObj rest

/-- noBadDFS over list items. -/
def noBadDFSList : List BVal → Bool
  | [] => true
  | item :: rest => noBadDFS item && noBadDFSList rest
end

/-- The early-return test of `_handle_date_in_query` for a whole entry:
only string values can trigger. -/
def entryTriggerOfEntry (now : PyDateTime) (p : String × BVal) :
    Option PyDateTime :=
  match p.2 with
  | .vstr s => entryTrigger now p.1 s
  | _ => none

/-- Whether an execute_query result dict carries a count and an
explanation entry. -/
def resultHasCountAndExplanation (v : BVal) : Bool :=
  match v with
  | .vobj m => dictContains m "count" && dictContains m "explanation"
  | _ => false

/-- The per-entry invariant of the schema cache: duplicate-free types, at
most three examples, and no examples for the top-level _id field. -/
def fieldInv (p : String × FieldInfo) : Prop :=
  p.2.types.Nodup ∧ p.2.examples.length ≤ 3 ∧ (p.1 = "_id" → p.2.examples = [])

/-- A concrete collection whose find yields sixty documents, for
exercising the 50-document limit. -/
def wFindColl : MongoCollection :=
  { find := fun _ => .ok (List.replicate 60 (.vobj [("a", .vint 1)]))
    aggregate := fun _ => .ok []
    count_documents := fun _ => .ok 0
    distinct := fun _ _ => .ok [] }

/-- A concrete collection whose every call fails, for exercising the
error wrapping. -/
def wFailColl : MongoCollection :=
  { find := fun _ => .error (.typeError "boom")
    aggregate := fun _ => .error (.typeError "boom")
    count_documents := fun _ => .error (.typeError "boom")
    distinct := fun _ _ => .error (.typeError "boom") }

/-- A concrete client whose calls succeed. -/
def wClientOk : PyMongoClient :=
  { findRaw := fun _ _ _ => .ok [.vobj [("x", .vint 1)]]
    findOneRaw := fun _ _ _ => .ok (some (.vobj [("x", .vint 1)])) }

/-- A concrete client whose calls raise. -/
def wClientErr : PyMongoClient :=
  { findRaw := fun _ _ _ => .error (.runtimeError "down")
    findOneRaw := fun _ _ _ => .error (.runtimeError "down") }

/-- The sample documents of the fixture engine's portcalls collection. -/
def wSampleDocs : List (List (String × BVal)) :=
  [[("_id", .vobjid "a1"), ("name", .vstr "x"),
    ("createdOn", .vdt ⟨2025, 1, 2, 3, 4, 5⟩)]]

/-- A concrete engine over one analyzed collection whose LLM returns
prose that holds no JSON. -/
def wEngine : Engine :=
  { database_name := "db"
    dbCollectionNames := ["portcalls"]
    collections := [("portcalls", analyze_collection 2 wSampleDocs)]
    current_collection := some "portcalls"
    countDocuments := fun _ => .ok 2
    sampleDocs := fun _ => .ok wSampleDocs
    llm := fun _ => .ok "no json"
    collFind := fun _ _ => .ok []
    collAggregate := fun _ _ => .ok []
    collCount := fun _ _ => .ok 0
    collDistinct := fun _ _ _ => .ok []
    now := ⟨2025, 6, 15, 10, 0, 0⟩ }

/-! ## Helper lemmas -/

/-- A list starts with itself followed by anything. -/
theorem startsWithCL_append (a b : List Char) : startsWithCL (a ++ b) a = true := by
  induction a with
  | nil => cases b <;> rfl
  | cons c rest ih => simp [startsWithCL, ih]

/-- Setting a key twice to the same value is the same as setting it once. -/
theorem dictSet_idem (m : List (String × BVal)) (k : String) (v : BVal) :
    dictSet (dictSet m k v) k v = dictSet m k v := by
  induction m with
  | nil => simp [dictSet]
  | cons p rest ih =>
      by_cases h : p.1 = k
      · simp [dictSet, h]
      · simp [dictSet, h, ih]

/-- dictSet leaves the key set unchanged up to adding the assigned key. -/
theorem dictContains_dictSet (m : List (String × BVal)) (k key : String) (v : BVal) :
    dictContains (dictSet m k v) key = (dictContains m key || key = k) := by
  induction m with
  | nil =>
      by_cases h : k = key <;>
        simp [dictSet, dictContains, dictLookup, h, eq_comm]
  | cons p rest ih =>
      obtain ⟨k0, v0⟩ := p
      simp only [dictContains, dictLookup] at ih ⊢
      by_cases h : k0 = k
      · subst h
        by_cases hk : k0 = key
        · subst hk
          simp [dictSet, dictLookup]
        · have hk2 : ¬ key = k0 := fun hh => hk hh.symm
          simp [dictSet, dictLookup, hk, hk2]
      · by_cases hk : k0 = key
        · subst hk
          have hk2 : ¬ k0 = k := h
          simp [dictSet, dictLookup, hk2, fun hh => hk2 (hh : k0 = k)]
        · simp [dictSet, dictLookup, h, hk, ih]

/-- fixObjEntries keeps every key in place. -/
theorem dictContains_fixObjEntries (m : List (String × BVal)) (key : String) :
    dictContains (fixObjEntries m) key = dictContains m key := by
  induction m with
  | nil => rfl
  | cons p rest ih =>
      obtain ⟨k, v⟩ := p
      simp only [dictContains, dictLookup] at ih ⊢
      by_cases h : k = key <;> simp [fixObjEntries, dictLookup, h, ih]

/-! ## C7: Database.find / find_one never propagate -/

/-- C7: For every collection name, query and projection, Database.find
returns the list the underlying find call produced and returns [] whenever
that call raises any exception; Database.find_one likewise returns the
single document or None on any exception; neither method ever lets an
exception escape. -/
theorem database_find_swallow (c : PyMongoClient) (name : String)
    (q : BVal) (proj : Option BVal) :
    (∀ l, c.findRaw name q proj = .ok l → Database.find c name q proj = .ok l) ∧
    (∀ err, c.findRaw name q proj = .error err →
      Database.find c name q proj = .ok []) ∧
    (∀ err, Database.find c name q proj ≠ .error err) ∧
    (∀ d, c.findOneRaw name q proj = .ok d → Database.find_one c name q proj = .ok d) ∧
    (∀ err, c.findOneRaw name q proj = .error err →
      Database.find_one c name q proj = .ok none) ∧
    (∀ err, Database.find_one c name q proj ≠ .error err) := by
  unfold Database.find Database.find_one
  refine ⟨fun l h => by simp [h], fun err h => by simp [h], ?_,
    fun d h => by simp [h], fun err h => by simp [h], ?_⟩
  · cases h : c.findRaw name q proj <;> simp
  · cases h : c.findOneRaw name q proj <;> simp

/-- C7 witness: on a client that succeeds the documents come back; on a
client whose calls raise, find yields [] and find_one yields None. -/
theorem database_find_swallow_witness :
    Database.find wClientOk "portcalls" (.vobj []) none =
      .ok [.vobj [("x", .vint 1)]] ∧
    Database.find wClientErr "portcalls" (.vobj []) none = .ok [] ∧
    Database.find_one wClientErr "portcalls" (.vobj []) none = .ok none :=
  ⟨(database_find_swallow wClientOk "portcalls" (.vobj []) none).1 _ rfl,
   (database_find_swallow wClientErr "portcalls" (.vobj []) none).2.1 _ rfl,
   (database_find_swallow wClientErr "portcalls" (.vobj []) none).2.2.2.2.1 _ rfl⟩

/-! ## C2: `_fix_date_formats` matches its specification clause for clause -/

mutual
/-- The code's rewriting and the claim's three-case description agree on
every value. -/
theorem fixB_eq_spec : ∀ q : BVal, fix_date_formats q = fix_date_formats_spec q
  | .vstr _ => rfl
  | .vint _ => rfl
  | .vnum _ => rfl
  | .vbool _ => rfl
  | .vnone => rfl
  | .vdt _ => rfl
  | .vobjid _ => rfl
  | .varr items => by
      simp [fix_date_formats, fix_date_formats_spec, fixL_eq_spec items]
  | .vobj entries => by
      simp [fix_date_formats, fix_date_formats_spec, fixO_eq_spec entries]

/-- Entry lists agree. -/
theorem fixO_eq_spec : ∀ l : List (String × BVal), fixObjEntries l = fixSpecObj l
  | [] => rfl
  | (k, v) :: rest => by
      have hrest := fixO_eq_spec rest
      by_cases h1 : k = "$dateFromString" ∧ isDictWithDateStringAndFormat v = true
      · simp [fixObjEntries, fixSpecObj, h1, hrest]
      · by_cases h2 : isDateConvOp k = true
        · by_cases h3 : isDictWithFormat v = true
          · have : ¬ (k = "$dateFromString" ∧ isDictWithDateStringAndFormat v = true) := h1
            simp [fixObjEntries, fixSpecObj, h1, h2, h3, hrest]
          · -- the code's else arm calls the method itself; the spec's generic
            -- case recurses into dicts and lists and keeps scalars, which is
            -- what fix_date_formats does
            cases v with
            | vobj m =>
                simp [fixObjEntries, fixSpecObj, h1, h2, h3, hrest,
                  fixB_eq_spec (BVal.vobj m)]
            | varr items =>
                simp [fixObjEntries, fixSpecObj, h1, h2, h3, hrest,
                  fixB_eq_spec (BVal.varr items)]
            | vstr s => simp [fixObjEntries, fixSpecObj, h1, h2, h3, hrest,
                fix_date_formats]
            | vint i => simp [fixObjEntries, fixSpecObj, h1, h2, h3, hrest,
                fix_date_formats]
            | vnum s => simp [fixObjEntries, fixSpecObj, h1, h2, h3, hrest,
                fix_date_formats]
            | vbool b => simp [fixObjEntries, fixSpecObj, h1, h2, h3, hrest,
                fix_date_formats]
            | vnone => simp [fixObjEntries, fixSpecObj, h1, h2, h3, hrest,
                fix_date_formats]
            | vdt dt => simp [fixObjEntries, fixSpecObj, h1, h2, h3, hrest,
                fix_date_formats]
            | vobjid s => simp [fixObjEntries, fixSpecObj, h1, h2, h3, hrest,
                fix_date_formats]
        · cases v with
          | vobj m =>
              simp [fixObjEntries, fixSpecObj, h1, h2, hrest,
                fixB_eq_spec (BVal.vobj m)]
          | varr items =>
              simp [fixObjEntries, fixSpecObj, h1, h2, hrest,
                fixB_eq_spec (BVal.varr items)]
          | vstr s => simp [fixObjEntries, fixSpecObj, h1, h2, hrest]
          | vint i => simp [fixObjEntries, fixSpecObj, h1, h2, hrest]
          | vnum s => simp [fixObjEntries, fixSpecObj, h1, h2, hrest]
          | vbool b => simp [fixObjEntries, fixSpecObj, h1, h2, hrest]
          | vnone => simp [fixObjEntries, fixSpecObj, h1, h2, hrest]
          | vdt dt => simp [fixObjEntries, fixSpecObj, h1, h2, hrest]
          | vobjid s => simp [fixObjEntries, fixSpecObj, h1, h2, hrest]

/-- Item lists agree. -/
theorem fixL_eq_spec : ∀ l : List BVal, fixListItems l = fixSpecList l
  | [] => rfl
  | item :: rest => by
      have hrest := fixL_eq_spec rest
      cases item with
      | vobj m =>
          simp [fixListItems, fixSpecList, hrest, fixB_eq_spec (BVal.vobj m)]
      | varr items =>
          simp [fixListItems, fixSpecList, hrest, fixB_eq_spec (BVal.varr items)]
      | vstr s => simp [fixListItems, fixSpecList, hrest]
      | vint i => simp [fixListItems, fixSpecList, hrest]
      | vnum s => simp [fixListItems, fixSpecList, hrest]
      | vbool b => simp [fixListItems, fixSpecList, hrest]
      | vnone => simp [fixListItems, fixSpecList, hrest]
      | vdt dt => simp [fixListItems, fixSpecList, hrest]
      | vobjid s => simp [fixListItems, fixSpecList, hrest]
end

/-- C2: `_fix_date_formats` (1) replaces a "$dateFromString" value that is
a dict with both "dateString" and "format" by the dict holding only the
dateString entry, (2) sets the "format" of a
$dateToString/$dateToParts/$dateFromParts dict that contains one to the
ISO string keeping its other entries, and (3) leaves every other key and
every non-dict, non-list value unchanged while recursing into nested
dicts and lists: stated as agreement with the specification function
written from the claim's words. -/
theorem fix_date_formats_meets_spec (q : BVal) :
    fix_date_formats q = fix_date_formats_spec q :=
  fixB_eq_spec q

/-! ## C1: outcomes of the JSON-extraction step -/

/-- Bind on a successful Except applies the continuation. -/
theorem except_bind_ok {α β : Type} (a : α) (f : α → Except PyError β) :
    (Except.ok a >>= f) = f a := rfl

/-- Bind on a failed Except keeps the error. -/
theorem except_bind_error {α β : Type} (e : PyError) (f : α → Except PyError β) :
    ((Except.error e : Except PyError α) >>= f) = .error e := rfl

/-- json.loads either parses or raises a json.JSONDecodeError. -/
theorem jsonLoads_shape (s : String) :
    (∃ v, jsonLoads s = .ok v) ∨
    (∃ m, jsonLoads s = .error (.jsonDecodeError m)) := by
  unfold jsonLoads
  cases h : jsonParseValue (s.length + 1) s.data with
  | none => exact .inr ⟨"Expecting value", rfl⟩
  | some p =>
      by_cases h2 : jsonSkipWs p.2 = []
      · exact .inl ⟨p.1, by simp [h2]⟩
      · exact .inr ⟨"Extra data", by simp [h2]⟩

/-- The post-parse "query" fix-up succeeds exactly on membership-safe
values and raises TypeError on the rest. -/
theorem applyQueryFix_shape (v : BVal) :
    (queryMembershipSafe v = true → ∃ w, applyQueryFix v = .ok w) ∧
    (queryMembershipSafe v = false →
      ∃ m, applyQueryFix v = .error (.typeError m)) := by
  cases v with
  | vobj entries =>
      refine ⟨fun _ => ?_, fun h => by simp [queryMembershipSafe] at h⟩
      by_cases h : dictContains entries "query" = true
      · exact ⟨.vobj (dictSet entries "query"
            (fix_date_formats (dictGetD entries "query" .vnone))),
          by simp [applyQueryFix, pyInQueryTest, except_bind_ok, h]⟩
      · exact ⟨.vobj entries,
          by simp [applyQueryFix, pyInQueryTest, except_bind_ok, h]⟩
  | varr items =>
      by_cases h : (items.any fun x =>
          match x with | .vstr s => s = "query" | _ => false) = true
      · refine ⟨fun hs => ?_, fun _ => ?_⟩
        · simp [queryMembershipSafe, h] at hs
        · exact ⟨"list indices must be integers or slices, not str",
            by simp [applyQueryFix, pyInQueryTest, except_bind_ok, h]⟩
      · refine ⟨fun _ => ?_, fun hs => ?_⟩
        · exact ⟨.varr items,
            by simp [applyQueryFix, pyInQueryTest, except_bind_ok, h]⟩
        · simp [queryMembershipSafe, h] at hs
  | vstr s =>
      by_cases h : pyContainsSub s "query" = true
      · refine ⟨fun hs => ?_, fun _ => ?_⟩
        · simp [queryMembershipSafe, h] at hs
        · exact ⟨"string indices must be integers",
            by simp [applyQueryFix, pyInQueryTest, except_bind_ok, h]⟩
      · refine ⟨fun _ => ?_, fun hs => ?_⟩
        · exact ⟨.vstr s,
            by simp [applyQueryFix, pyInQueryTest, except_bind_ok, h]⟩
        · simp [queryMembershipSafe, h] at hs
  | vint i =>
      exact ⟨fun hs => by simp [queryMembershipSafe] at hs,
        fun _ => ⟨"argument of type is not iterable", rfl⟩⟩
  | vnum s =>
      exact ⟨fun hs => by simp [queryMembershipSafe] at hs,
        fun _ => ⟨"argument of type is not iterable", rfl⟩⟩
  | vbool b =>
      exact ⟨fun hs => by simp [queryMembershipSafe] at hs,
        fun _ => ⟨"argument of type is not iterable", rfl⟩⟩
  | vnone =>
      exact ⟨fun hs => by simp [queryMembershipSafe] at hs,
        fun _ => ⟨"argument of type is not iterable", rfl⟩⟩
  | vdt dt =>
      exact ⟨fun hs => by simp [queryMembershipSafe] at hs,
        fun _ => ⟨"argument of type is not iterable", rfl⟩⟩
  | vobjid s =>
      exact ⟨fun hs => by simp [queryMembershipSafe] at hs,
        fun _ => ⟨"argument of type is not iterable", rfl⟩⟩

/-- C1 amended: without a fenced block, the extraction step returns the
parsed value or raises ValueError (the bare except); with a fenced block,
a parse failure raises ValueError, and a parsed value is returned when it
admits the "query" membership test and assignment (a dict, or a list or
string without "query"), while the other parsed values let a TypeError
escape, a third outcome the claim as stated excludes. -/
theorem extract_query_data_outcomes (text : String) :
    (reSearchFence text.data = none →
      (∃ v, extract_query_data text = .ok v) ∨
      (∃ m, extract_query_data text = .error (.valueError m))) ∧
    (∀ cap, reSearchFence text.data = some cap →
      ((∃ m, jsonLoads (String.mk cap) = .error (.jsonDecodeError m)) →
        ∃ m2, extract_query_data text = .error (.valueError m2)) ∧
      (∀ v, jsonLoads (String.mk cap) = .ok v →
        (queryMembershipSafe v = true → ∃ w, extract_query_data text = .ok w) ∧
        (queryMembershipSafe v = false →
          ∃ m, extract_query_data text = .error (.typeError m)))) := by
  constructor
  · intro h
    cases h2 : jsonLoads text >>= applyQueryFix with
    | ok v =>
        exact .inl ⟨v, by unfold extract_query_data; simp [h, h2]⟩
    | error e =>
        exact .inr ⟨"Could not extract valid JSON from response: " ++ text,
          by unfold extract_query_data; simp [h, h2]⟩
  · intro cap h
    constructor
    · rintro ⟨m, hm⟩
      exact ⟨"Generated invalid JSON: " ++ m ++ "\nJSON string: " ++ String.mk cap,
        by unfold extract_query_data; simp [h, hm]⟩
    · intro v hv
      have hs := applyQueryFix_shape v
      constructor
      · intro hsafe
        obtain ⟨w, hw⟩ := hs.1 hsafe
        refine ⟨w, ?_⟩
        unfold extract_query_data
        simp only [h]
        rw [show String.mk cap = { data := cap } from rfl] at hv
        simp [hv, hw]
      · intro hunsafe
        obtain ⟨m, hm⟩ := hs.2 hunsafe
        refine ⟨m, ?_⟩
        unfold extract_query_data
        simp only [h]
        rw [show String.mk cap = { data := cap } from rfl] at hv
        simp [hv, hm]

/-- C1 counterexample: the response whose fenced block is the valid JSON
3 makes generate_mongodb_query raise TypeError from the "query"
membership test on an int, neither the claimed return of a parsed object
nor a ValueError. -/
theorem extract_query_data_typeerror_cex :
    extract_query_data "```json\n3\n```" =
      .error (.typeError "argument of type is not iterable") := rfl

/-! ## C5: the raise surface of execute_query -/

/-- Every value the try block returns carries count and explanation. -/
theorem execute_query_body_ok_shape (coll : MongoCollection) (qt : String)
    (query explanation : BVal) (v : BVal)
    (h : execute_query_body coll qt query explanation = .ok v) :
    resultHasCountAndExplanation v = true := by
  unfold execute_query_body at h
  by_cases h1 : qt = "find"
  · subst h1
    simp only [String.reduceEq, reduceIte] at h
    cases hf : coll.find query with
    | error e => rw [hf] at h; exact Except.noConfusion h
    | ok docs =>
        rw [hf] at h
        cases h
        simp [resultHasCountAndExplanation, dictContains, dictLookup]
  · by_cases h2 : qt = "aggregate"
    · subst h2
      cases query with
      | varr stages =>
          simp only [String.reduceEq, reduceIte] at h
          cases ha : coll.aggregate (effectivePipeline stages) with
          | error e => rw [ha] at h; exact Except.noConfusion h
          | ok results =>
              rw [ha] at h
              cases h
              simp [resultHasCountAndExplanation, dictContains, dictLookup]
      | vstr s => simp at h
      | vint i => simp at h
      | vnum s => simp at h
      | vbool b => simp at h
      | vnone => simp at h
      | vdt dt => simp at h
      | vobjid s => simp at h
      | vobj m => simp at h
    · by_cases h3 : qt = "count"
      · subst h3
        simp only [String.reduceEq, reduceIte] at h
        cases hc : coll.count_documents query with
        | error e => rw [hc] at h; exact Except.noConfusion h
        | ok n =>
            rw [hc] at h
            cases h
            simp [resultHasCountAndExplanation, dictContains, dictLookup]
      · by_cases h4 : qt = "distinct"
        · subst h4
          cases query with
          | vobj qm =>
              simp only [String.reduceEq, reduceIte] at h
              by_cases h5 : pyTruthy (dictGetD qm "field" .vnone) = true
              · rw [h5] at h
                simp only [not_true, reduceIte] at h
                cases hfld : dictGetD qm "field" .vnone with
                | vstr fieldName =>
                    rw [hfld] at h
                    simp only [] at h
                    cases hd : coll.distinct fieldName
                        (dictGetD qm "filter" (.vobj [])) with
                    | error e => rw [hd] at h; exact Except.noConfusion h
                    | ok values =>
                        rw [hd] at h
                        cases h
                        simp [resultHasCountAndExplanation, dictContains, dictLookup]
                | vint i => rw [hfld] at h; exact Except.noConfusion h
                | vnum s => rw [hfld] at h; exact Except.noConfusion h
                | vbool b => rw [hfld] at h; exact Except.noConfusion h
                | vnone => rw [hfld] at h; exact Except.noConfusion h
                | vdt dt => rw [hfld] at h; exact Except.noConfusion h
                | vobjid s => rw [hfld] at h; exact Except.noConfusion h
                | varr l => rw [hfld] at h; exact Except.noConfusion h
                | vobj l => rw [hfld] at h; exact Except.noConfusion h
              · simp only [Bool.not_eq_true] at h5
                rw [h5] at h
                simp at h
            | vstr s => simp at h
            | vint i => simp at h
            | vnum s => simp at h
            | vbool b => simp at h
            | vnone => simp at h
            | vdt dt => simp at h
            | vobjid s => simp at h
            | varr l => simp at h
        · rw [if_neg h1, if_neg h2, if_neg h3, if_neg h4] at h
          exact Except.noConfusion h

/-- C5 amended: execute_query raises ValueError only for a missing current
collection; a missing distinct field, an unsupported query type and a
failing database call all surface as RuntimeError prefixed "Error
executing query: ", because the two inner ValueErrors are raised inside
the same try block that wraps database failures; every normal return is a
dict carrying count and explanation.  (Stated for dict-shaped query_data
whose query_type entry, when present, is a string, the shape the
generation step produces; other shapes raise AttributeError before the
try block.) -/
theorem execute_query_error_surface :
    (∀ now qd, execute_query none now qd =
      .error (.valueError "No collection selected")) ∧
    (∀ (coll : MongoCollection) (now : PyDateTime)
        (entries : List (String × BVal)) (qt : String),
      dictGetD entries "query_type" (.vstr "") = .vstr qt →
      (∃ v, execute_query (some coll) now (.vobj entries) = .ok v ∧
        resultHasCountAndExplanation v = true) ∨
      (∃ m, execute_query (some coll) now (.vobj entries) =
        .error (.runtimeError ("Error executing query: " ++ m)))) ∧
    (∀ (coll : MongoCollection) (now : PyDateTime)
        (entries qm : List (String × BVal)),
      dictGetD entries "query_type" (.vstr "") = .vstr "distinct" →
      handle_date_in_query now (dictGetD entries "query" (.vobj [])) = .vobj qm →
      pyTruthy (dictGetD qm "field" .vnone) = false →
      execute_query (some coll) now (.vobj entries) =
        .error (.runtimeError
          "Error executing query: 'field' is required for distinct queries")) ∧
    (∀ (coll : MongoCollection) (now : PyDateTime)
        (entries : List (String × BVal)) (qt : String),
      dictGetD entries "query_type" (.vstr "") = .vstr qt →
      pyLower qt ≠ "find" → pyLower qt ≠ "aggregate" → pyLower qt ≠ "count" →
      pyLower qt ≠ "distinct" →
      execute_query (some coll) now (.vobj entries) =
        .error (.runtimeError
          ("Error executing query: Unsupported query type: " ++ pyLower qt))) := by
  refine ⟨fun now qd => rfl, ?_, ?_, ?_⟩
  · intro coll now entries qt h
    unfold execute_query
    simp only [h]
    cases hb : execute_query_body coll (pyLower qt)
        (handle_date_in_query now (dictGetD entries "query" (.vobj [])))
        (dictGetD entries "explanation" (.vstr "")) with
    | ok v =>
        exact .inl ⟨v, by simp [wrapQueryError, hb],
          execute_query_body_ok_shape _ _ _ _ _ hb⟩
    | error e =>
        exact .inr ⟨e.message, by simp [wrapQueryError, hb]⟩
  · intro coll now entries qm h hq hfld
    unfold execute_query
    simp only [h]
    rw [hq]
    have : execute_query_body coll (pyLower "distinct") (.vobj qm)
        (dictGetD entries "explanation" (.vstr "")) =
        .error (.valueError "'field' is required for distinct queries") := by
      show execute_query_body coll "distinct" _ _ = _
      unfold execute_query_body
      simp only [String.reduceEq, reduceIte]
      rw [hfld]
      simp
    rw [this]
    rfl
  · intro coll now entries qt h hn1 hn2 hn3 hn4
    unfold execute_query
    simp only [h]
    have : execute_query_body coll (pyLower qt)
        (handle_date_in_query now (dictGetD entries "query" (.vobj [])))
        (dictGetD entries "explanation" (.vstr "")) =
        .error (.valueError ("Unsupported query type: " ++ pyLower qt)) := by
      unfold execute_query_body
      rw [if_neg hn1, if_neg hn2, if_neg hn3, if_neg hn4]
    rw [this]
    rfl

/-- C5 counterexample: with a collection selected, a distinct query whose
dict has no field entry makes execute_query raise RuntimeError wrapping
the message, not the ValueError the claim states. -/
theorem execute_query_distinct_runtimeerror_cex :
    execute_query (some wFindColl) ⟨2025, 6, 15, 10, 0, 0⟩
        (.vobj [("query_type", .vstr "distinct"), ("query", .vobj [])]) =
      .error (.runtimeError
        "Error executing query: 'field' is required for distinct queries") := rfl

/-- C5 witness: a concrete count query returns a dict with count and
explanation, and a concrete failing find is re-raised as RuntimeError,
both through the amended theorem. -/
theorem execute_query_error_surface_witness :
    ((∃ v, execute_query (some wFindColl) ⟨2025, 6, 15, 10, 0, 0⟩
        (.vobj [("query_type", .vstr "count"), ("query", .vobj [])]) = .ok v ∧
      resultHasCountAndExplanation v = true) ∨
     (∃ m, execute_query (some wFindColl) ⟨2025, 6, 15, 10, 0, 0⟩
        (.vobj [("query_type", .vstr "count"), ("query", .vobj [])]) =
       .error (.runtimeError ("Error executing query: " ++ m)))) ∧
    execute_query (some wFindColl) ⟨2025, 6, 15, 10, 0, 0⟩
        (.vobj [("query_type", .vstr "upsert"), ("query", .vobj [])]) =
      .error (.runtimeError "Error executing query: Unsupported query type: upsert") :=
  ⟨execute_query_error_surface.2.1 wFindColl ⟨2025, 6, 15, 10, 0, 0⟩
      [("query_type", .vstr "count"), ("query", .vobj [])] "count" rfl,
   execute_query_error_surface.2.2.2 wFindColl ⟨2025, 6, 15, 10, 0, 0⟩
      [("query_type", .vstr "upsert"), ("query", .vobj [])] "upsert" rfl
      (by decide) (by decide) (by decide) (by decide)⟩

/-! ## C3: result limits -/

/-- A stage with a non-None $limit in particular has a $limit key. -/
theorem stageHasLimitKey_of_nonNone (s : BVal)
    (h : stageHasLimitNonNone s = true) : stageHasLimitKey s = true := by
  cases s with
  | vobj m =>
      simp only [stageHasLimitNonNone] at h
      simp only [stageHasLimitKey, dictContains]
      cases hl : dictLookup m "$limit" with
      | none => rw [hl] at h; cases h
      | some v => simp [hl]
  | vstr s => cases h
  | vint i => cases h
  | vnum s => cases h
  | vbool b => cases h
  | vnone => cases h
  | vdt dt => cases h
  | vobjid s => cases h
  | varr l => cases h

/-- C3: a find returns the first at most 50 matching documents; an
aggregate pipeline without a non-None $limit stage gets the stage
followed by $limit 50 appended before execution, so every executed
pipeline holds a $limit stage, and the aggregate call runs exactly on
effectivePipeline. -/
theorem execute_query_limits :
    (∀ (coll : MongoCollection) (now : PyDateTime)
        (entries : List (String × BVal)) (docs : List BVal),
      dictGetD entries "query_type" (.vstr "") = .vstr "find" →
      coll.find (handle_date_in_query now (dictGetD entries "query" (.vobj []))) =
        .ok docs →
      execute_query (some coll) now (.vobj entries) =
        .ok (.vobj [("count", .vint (docs.take 50).length),
          ("results", .varr (bsonRoundTripList (docs.take 50))),
          ("explanation", dictGetD entries "explanation" (.vstr ""))]) ∧
      (docs.take 50).length ≤ 50) ∧
    (∀ stages : List BVal, stages.any stageHasLimitNonNone = false →
      effectivePipeline stages = stages ++ [.vobj [("$limit", .vint 50)]]) ∧
    (∀ stages : List BVal,
      ∃ s ∈ effectivePipeline stages, stageHasLimitKey s = true) ∧
    (∀ (coll : MongoCollection) (now : PyDateTime)
        (entries : List (String × BVal)) (stages results : List BVal),
      dictGetD entries "query_type" (.vstr "") = .vstr "aggregate" →
      handle_date_in_query now (dictGetD entries "query" (.vobj [])) =
        .varr stages →
      coll.aggregate (effectivePipeline stages) = .ok results →
      execute_query (some coll) now (.vobj entries) =
        .ok (.vobj [("count", .vint results.length),
          ("results", .varr (bsonRoundTripList results)),
          ("explanation", dictGetD entries "explanation" (.vstr ""))])) := by
  refine ⟨?_, ?_, ?_, ?_⟩
  · intro coll now entries docs h hf
    constructor
    · unfold execute_query
      simp only [h]
      have hl : pyLower "find" = "find" := rfl
      rw [hl]
      unfold execute_query_body
      simp only [String.reduceEq, reduceIte]
      rw [hf]
      rfl
    · exact List.length_take_le 50 docs
  · intro stages h
    unfold effectivePipeline
    rw [h]
    rfl
  · intro stages
    by_cases h : stages.any stageHasLimitNonNone = true
    · obtain ⟨s, hs, hlim⟩ := List.any_eq_true.mp h
      refine ⟨s, ?_, stageHasLimitKey_of_nonNone s hlim⟩
      unfold effectivePipeline
      rw [h]
      simpa using hs
    · refine ⟨.vobj [("$limit", .vint 50)], ?_, by decide⟩
      unfold effectivePipeline
      rw [Bool.not_eq_true] at h
      rw [h]
      simp
  · intro coll now entries stages results h hq ha
    unfold execute_query
    simp only [h]
    have hl : pyLower "aggregate" = "aggregate" := rfl
    rw [hl, hq]
    unfold execute_query_body
    simp only [String.reduceEq, reduceIte]
    rw [ha]
    rfl

/-- C3 witness: on a collection matching sixty documents, find returns
fifty, and an aggregate pipeline of one $match stage runs with the
appended $limit stage. -/
theorem execute_query_limits_witness :
    execute_query (some wFindColl) ⟨2025, 6, 15, 10, 0, 0⟩
        (.vobj [("query_type", .vstr "find"), ("query", .vobj [])]) =
      .ok (.vobj [("count", .vint 50),
        ("results", .varr (bsonRoundTripList
          ((List.replicate 60 (BVal.vobj [("a", .vint 1)])).take 50))),
        ("explanation", .vstr "")]) ∧
    effectivePipeline [.vobj [("$match", .vobj [])]] =
      [.vobj [("$match", .vobj [])], .vobj [("$limit", .vint 50)]] := by
  constructor
  · have h := (execute_query_limits.1 wFindColl ⟨2025, 6, 15, 10, 0, 0⟩
      [("query_type", .vstr "find"), ("query", .vobj [])]
      (List.replicate 60 (BVal.vobj [("a", .vint 1)])) rfl rfl).1
    simpa using h
  · exact execute_query_limits.2.1 [.vobj [("$match", .vobj [])]] rfl

/-! ## C8: the early return of `_handle_date_in_query` -/

/-- Stepping the dict loop: entries before the first trigger are
processed and kept, and the loop returns the parsed datetime itself the
moment a string value triggers, for any accumulator. -/
theorem handleObjLoop_trigger (now : PyDateTime) (k s : String)
    (post : List (String × BVal)) (dt : PyDateTime) :
    ∀ (pre : List (String × BVal)) (acc : List (String × BVal)),
      (∀ p ∈ pre, entryTriggerOfEntry now p = none) →
      entryTrigger now k s = some dt →
      handleObjLoop now (pre ++ (k, .vstr s) :: post) acc = .vdt dt := by
  intro pre
  induction pre with
  | nil =>
      intro acc _ htrig
      simp only [List.nil_append, handleObjLoop]
      rw [htrig]
  | cons p rest ih =>
      intro acc hpre htrig
      have hp : entryTriggerOfEntry now p = none := hpre p (by simp)
      have hrest : ∀ q ∈ rest, entryTriggerOfEntry now q = none :=
        fun q hq => hpre q (by simp [hq])
      obtain ⟨k0, v0⟩ := p
      cases v0 with
      | vobj inner =>
          simp only [List.cons_append, handleObjLoop]
          exact ih _ hrest htrig
      | varr items =>
          simp only [List.cons_append, handleObjLoop]
          exact ih _ hrest htrig
      | vstr s0 =>
          simp only [entryTriggerOfEntry] at hp
          simp only [List.cons_append, handleObjLoop]
          rw [hp]
          exact ih _ hrest htrig
      | vint i =>
          simp only [List.cons_append, handleObjLoop]
          exact ih _ hrest htrig
      | vnum s0 =>
          simp only [List.cons_append, handleObjLoop]
          exact ih _ hrest htrig
      | vbool b =>
          simp only [List.cons_append, handleObjLoop]
          exact ih _ hrest htrig
      | vnone =>
          simp only [List.cons_append, handleObjLoop]
          exact ih _ hrest htrig
      | vdt d =>
          simp only [List.cons_append, handleObjLoop]
          exact ih _ hrest htrig
      | vobjid o =>
          simp only [List.cons_append, handleObjLoop]
          exact ih _ hrest htrig

/-- C8: when the loop of `_handle_date_in_query` first hits an entry whose
string value parses as a date (a $date key with a parseable ISO string, a
"new Date(...)" or an "ISODate(...)" form), the method returns that single
parsed datetime in place of the entire enclosing dict, discarding every
sibling key, earlier and later alike. -/
theorem handle_date_in_query_first_trigger (now : PyDateTime)
    (pre post : List (String × BVal)) (k s : String) (dt : PyDateTime)
    (hpre : ∀ p ∈ pre, entryTriggerOfEntry now p = none)
    (htrig : entryTrigger now k s = some dt) :
    handle_date_in_query now (.vobj (pre ++ (k, .vstr s) :: post)) = .vdt dt := by
  simp only [handle_date_in_query]
  exact handleObjLoop_trigger now k s post dt pre [] hpre htrig

/-- C8 witness: a range dict with a $gte and a $lt bound collapses to the
single datetime parsed from the $gte bound; the $lt sibling is gone. -/
theorem handle_date_in_query_first_trigger_witness :
    handle_date_in_query ⟨2025, 1, 1, 0, 0, 0⟩
        (.vobj [("$gte", .vstr "new Date(2023, 0, 1)"),
                ("$lt", .vstr "new Date(2024, 0, 1)")]) =
      .vdt ⟨2023, 1, 1, 0, 0, 0⟩ :=
  handle_date_in_query_first_trigger ⟨2025, 1, 1, 0, 0, 0⟩ []
    [("$lt", .vstr "new Date(2024, 0, 1)")] "$gte" "new Date(2023, 0, 1)"
    ⟨2023, 1, 1, 0, 0, 0⟩ (by simp) rfl

/-! ## C4: get_time_range_query helper lemmas -/

/-- Every month length lies between 28 and 31. -/
theorem daysInMonth_bounds (y m : Int) :
    28 ≤ daysInMonth y m ∧ daysInMonth y m ≤ 31 := by
  unfold daysInMonth
  split_ifs <;> norm_num

/-- Advancing a day strictly increases the date linearization. -/
theorem nextDay_dateVal (dt : PyDateTime) (h : validDate dt) :
    dateVal dt < dateVal (nextDay dt) := by
  obtain ⟨h1, h2, h3, h4⟩ := h
  have hb := daysInMonth_bounds dt.year dt.month
  unfold nextDay
  split_ifs with c1 c2 <;> simp [dateVal] <;> omega

/-- Advancing a day preserves calendar validity. -/
theorem nextDay_valid (dt : PyDateTime) (h : validDate dt) :
    validDate (nextDay dt) := by
  obtain ⟨h1, h2, h3, h4⟩ := h
  have hb := daysInMonth_bounds dt.year dt.month
  unfold nextDay
  split_ifs with c1 c2 <;> refine ⟨?_, ?_, ?_, ?_⟩ <;> simp <;>
    first
      | omega
      | (exact le_trans (by norm_num)
          (daysInMonth_bounds _ _).1)

/-- Advancing a day keeps the time of day. -/
theorem nextDay_time (dt : PyDateTime) :
    (nextDay dt).hour = dt.hour ∧ (nextDay dt).minute = dt.minute ∧
      (nextDay dt).second = dt.second := by
  unfold nextDay
  split_ifs <;> exact ⟨rfl, rfl, rfl⟩

/-- Stepping a day back preserves calendar validity. -/
theorem prevDay_valid (dt : PyDateTime) (h : validDate dt) :
    validDate (prevDay dt) := by
  obtain ⟨h1, h2, h3, h4⟩ := h
  have hb2 := daysInMonth_bounds dt.year (dt.month - 1)
  have h12 : daysInMonth (dt.year - 1) 12 = 31 := by
    unfold daysInMonth; norm_num
  unfold prevDay
  split_ifs with c1 c2 <;> refine ⟨?_, ?_, ?_, ?_⟩ <;> simp <;> omega

/-- Stepping a day back keeps the time of day. -/
theorem prevDay_time (dt : PyDateTime) :
    (prevDay dt).hour = dt.hour ∧ (prevDay dt).minute = dt.minute ∧
      (prevDay dt).second = dt.second := by
  unfold prevDay
  split_ifs <;> exact ⟨rfl, rfl, rfl⟩

/-- addDays preserves calendar validity. -/
theorem addDays_valid (k : Nat) (dt : PyDateTime) (h : validDate dt) :
    validDate (addDays k dt) := by
  induction k with
  | zero => exact h
  | succ n ih => exact nextDay_valid _ ih

/-- addDays keeps the time of day. -/
theorem addDays_time (k : Nat) (dt : PyDateTime) :
    (addDays k dt).hour = dt.hour ∧ (addDays k dt).minute = dt.minute ∧
      (addDays k dt).second = dt.second := by
  induction k with
  | zero => exact ⟨rfl, rfl, rfl⟩
  | succ n ih =>
      have ht := nextDay_time (addDays n dt)
      exact ⟨ht.1.trans ih.1, ht.2.1.trans ih.2.1, ht.2.2.trans ih.2.2⟩

/-- Adding at least one day strictly advances the date. -/
theorem addDays_dateVal (k : Nat) (dt : PyDateTime) (h : validDate dt) :
    dateVal dt < dateVal (addDays (k + 1) dt) := by
  induction k with
  | zero => exact nextDay_dateVal dt h
  | succ n ih =>
      exact lt_trans ih (nextDay_dateVal _ (addDays_valid (n + 1) dt h))

/-- subDays preserves calendar validity. -/
theorem subDays_valid (k : Nat) (dt : PyDateTime) (h : validDate dt) :
    validDate (subDays k dt) := by
  induction k with
  | zero => exact h
  | succ n ih => exact prevDay_valid _ ih

/-- subDays keeps the time of day. -/
theorem subDays_time (k : Nat) (dt : PyDateTime) :
    (subDays k dt).hour = dt.hour ∧ (subDays k dt).minute = dt.minute ∧
      (subDays k dt).second = dt.second := by
  induction k with
  | zero => exact ⟨rfl, rfl, rfl⟩
  | succ n ih =>
      have ht := prevDay_time (subDays n dt)
      exact ⟨ht.1.trans ih.1, ht.2.1.trans ih.2.1, ht.2.2.trans ih.2.2⟩

/-- A strict comparison of linearized month indices forces a strict
comparison of date linearizations, for in-range months and days. -/
theorem dateVal_lt_of_monthIdx (y1 m1 d1 y2 m2 d2 : Int)
    (hm1a : 1 ≤ m1) (hm1b : m1 ≤ 12) (hm2a : 1 ≤ m2) (hm2b : m2 ≤ 12)
    (hd1a : 1 ≤ d1) (hd1b : d1 ≤ 31) (hd2a : 1 ≤ d2) (hd2b : d2 ≤ 31)
    (hlt : 12 * y1 + m1 < 12 * y2 + m2) :
    y1 * 413 + m1 * 31 + d1 < y2 * 413 + m2 * 31 + d2 := by omega

/-- The month bounds, linearized month index and time of a relativedelta
month shift. -/
theorem addMonths_facts (dt : PyDateTime) (k : Int) :
    1 ≤ (addMonths dt k).month ∧ (addMonths dt k).month ≤ 12 ∧
    12 * (addMonths dt k).year + (addMonths dt k).month =
      12 * dt.year + dt.month + k ∧
    (addMonths dt k).hour = dt.hour ∧ (addMonths dt k).minute = dt.minute ∧
    (addMonths dt k).second = dt.second := by
  refine ⟨?_, ?_, ?_, rfl, rfl, rfl⟩
  · show 1 ≤ (dt.year * 12 + (dt.month - 1) + k) % 12 + 1
    omega
  · show (dt.year * 12 + (dt.month - 1) + k) % 12 + 1 ≤ 12
    omega
  · show 12 * ((dt.year * 12 + (dt.month - 1) + k) / 12) +
        ((dt.year * 12 + (dt.month - 1) + k) % 12 + 1) =
      12 * dt.year + dt.month + k
    omega

/-- The day of a month shift stays in the 1..31 band. -/
theorem addMonths_day_bounds (dt : PyDateTime) (k : Int)
    (h1 : 1 ≤ dt.day) (h2 : dt.day ≤ 31) :
    1 ≤ (addMonths dt k).day ∧ (addMonths dt k).day ≤ 31 := by
  have hb := daysInMonth_bounds ((dt.year * 12 + (dt.month - 1) + k) / 12)
    ((dt.year * 12 + (dt.month - 1) + k) % 12 + 1)
  show 1 ≤ min dt.day (daysInMonth ((dt.year * 12 + (dt.month - 1) + k) / 12)
      ((dt.year * 12 + (dt.month - 1) + k) % 12 + 1)) ∧
    min dt.day (daysInMonth ((dt.year * 12 + (dt.month - 1) + k) / 12)
      ((dt.year * 12 + (dt.month - 1) + k) % 12 + 1)) ≤ 31
  rcases le_total dt.day (daysInMonth ((dt.year * 12 + (dt.month - 1) + k) / 12)
      ((dt.year * 12 + (dt.month - 1) + k) % 12 + 1)) with h | h <;>
    rw [min_def] <;> split_ifs <;> omega

/-- C4: for each of the nine supported time ranges and every valid
current datetime, get_time_range_query returns the dict with $gte the
start and $lt the end, both at midnight day boundaries and the start
strictly before the end (December and January included); every other
string raises ValueError. -/
theorem get_time_range_query_bounds (today : PyDateTime) (hv : validDT today)
    (tr : String) :
    (tr ∈ ["today", "yesterday", "this_week", "last_week", "this_month",
           "last_month", "last_6_months", "this_year", "last_year"] →
      ∃ s en, get_time_range_query today tr =
          .ok (.vobj [("$gte", .vdt s), ("$lt", .vdt en)]) ∧
        atMidnight s ∧ atMidnight en ∧ dateVal s < dateVal en) ∧
    (tr ∉ ["today", "yesterday", "this_week", "last_week", "this_month",
           "last_month", "last_6_months", "this_year", "last_year"] →
      get_time_range_query today tr =
        .error (.valueError ("Unsupported time range: " ++ tr))) := by
  have hvd : validDate today := ⟨hv.2.1, hv.2.2.1, hv.2.2.2.1, hv.2.2.2.2.1⟩
  constructor
  · intro htr
    fin_cases htr
    · -- today
      refine ⟨mkDate today.year today.month today.day,
        addDays 1 (mkDate today.year today.month today.day), rfl,
        ⟨rfl, rfl, rfl⟩, ?_, ?_⟩
      · exact addDays_time 1 (mkDate today.year today.month today.day)
      · exact addDays_dateVal 0 (mkDate today.year today.month today.day) hvd
    · -- yesterday
      have hpv : validDate (prevDay (mkDate today.year today.month today.day)) :=
        prevDay_valid _ hvd
      refine ⟨prevDay (mkDate today.year today.month today.day),
        addDays 1 (prevDay (mkDate today.year today.month today.day)), rfl,
        prevDay_time (mkDate today.year today.month today.day), ?_, ?_⟩
      · have ht := addDays_time 1 (prevDay (mkDate today.year today.month today.day))
        have hp := prevDay_time (mkDate today.year today.month today.day)
        exact ⟨ht.1.trans hp.1, ht.2.1.trans hp.2.1, ht.2.2.trans hp.2.2⟩
      · exact addDays_dateVal 0 _ hpv
    · -- this_week
      have hsv : validDate (subDays (pyWeekday today).toNat today) :=
        subDays_valid _ today hvd
      refine ⟨_, _, rfl, ⟨rfl, rfl, rfl⟩, ?_, ?_⟩
      · exact addDays_time 7 _
      · exact addDays_dateVal 6 _ hsv
    · -- last_week
      have hsv : validDate (subDays ((pyWeekday today).toNat + 7) today) :=
        subDays_valid _ today hvd
      refine ⟨_, _, rfl, ⟨rfl, rfl, rfl⟩, ?_, ?_⟩
      · exact addDays_time 7 _
      · exact addDays_dateVal 6 _ hsv
    · -- this_month
      by_cases hm : today.month = 12
      · refine ⟨mkDate today.year today.month 1, mkDate (today.year + 1) 1 1,
          ?_, ⟨rfl, rfl, rfl⟩, ⟨rfl, rfl, rfl⟩, ?_⟩
        · simp [get_time_range_query, timeRangeBounds, hm, Except.map]
        · simp only [dateVal, mkDate]
          omega
      · refine ⟨mkDate today.year today.month 1,
          mkDate today.year (today.month + 1) 1,
          ?_, ⟨rfl, rfl, rfl⟩, ⟨rfl, rfl, rfl⟩, ?_⟩
        · simp [get_time_range_query, timeRangeBounds, hm, Except.map]
        · simp only [dateVal, mkDate]
          omega
    · -- last_month
      by_cases hm : today.month = 1
      · refine ⟨mkDate (today.year - 1) 12 1, mkDate today.year 1 1,
          ?_, ⟨rfl, rfl, rfl⟩, ⟨rfl, rfl, rfl⟩, ?_⟩
        · simp [get_time_range_query, timeRangeBounds, hm, Except.map]
        · simp only [dateVal, mkDate]
          omega
      · refine ⟨mkDate today.year (today.month - 1) 1,
          mkDate today.year today.month 1,
          ?_, ⟨rfl, rfl, rfl⟩, ⟨rfl, rfl, rfl⟩, ?_⟩
        · simp [get_time_range_query, timeRangeBounds, hm, Except.map]
        · simp only [dateVal, mkDate]
          omega
    · -- last_6_months
      have f1 := addMonths_facts today (-6)
      have f2 := addMonths_facts (mkDate today.year today.month 1) 1
      have fd := addMonths_day_bounds (mkDate today.year today.month 1) 1
        (le_refl 1) (by simp [mkDate])
      obtain ⟨hv1, hv2, hv3, hv4⟩ := hvd
      refine ⟨mkDate (addMonths today (-6)).year (addMonths today (-6)).month 1,
        addMonths (mkDate today.year today.month 1) 1,
        rfl, ⟨rfl, rfl, rfl⟩, ⟨f2.2.2.2.1, f2.2.2.2.2.1, f2.2.2.2.2.2⟩, ?_⟩
      simp only [mkDate] at f2 fd
      simp only [dateVal, mkDate]
      obtain ⟨g1, g2, g3, _⟩ := f1
      obtain ⟨k1, k2, k3, _⟩ := f2
      obtain ⟨d1, d2⟩ := fd
      omega
    · -- this_year
      refine ⟨mkDate today.year 1 1, mkDate (today.year + 1) 1 1, rfl,
        ⟨rfl, rfl, rfl⟩, ⟨rfl, rfl, rfl⟩, ?_⟩
      simp only [dateVal, mkDate]
      omega
    · -- last_year
      refine ⟨mkDate (today.year - 1) 1 1, mkDate today.year 1 1, rfl,
        ⟨rfl, rfl, rfl⟩, ⟨rfl, rfl, rfl⟩, ?_⟩
      simp only [dateVal, mkDate]
      omega
  · intro hn
    have h1 : ¬ tr = "today" := fun he => hn (by rw [he]; simp)
    have h2 : ¬ tr = "yesterday" := fun he => hn (by rw [he]; simp)
    have h3 : ¬ tr = "this_week" := fun he => hn (by rw [he]; simp)
    have h4 : ¬ tr = "last_week" := fun he => hn (by rw [he]; simp)
    have h5 : ¬ tr = "this_month" := fun he => hn (by rw [he]; simp)
    have h6 : ¬ tr = "last_month" := fun he => hn (by rw [he]; simp)
    have h7 : ¬ tr = "last_6_months" := fun he => hn (by rw [he]; simp)
    have h8 : ¬ tr = "this_year" := fun he => hn (by rw [he]; simp)
    have h9 : ¬ tr = "last_year" := fun he => hn (by rw [he]; simp)
    simp [get_time_range_query, timeRangeBounds, h1, h2, h3, h4, h5, h6, h7,
      h8, h9, Except.map]

/-- C4 witness: a December date rolls this_month over to January 1 of the
next year, and an unsupported string raises. -/
theorem get_time_range_query_bounds_witness :
    validDT ⟨2025, 12, 15, 9, 30, 0⟩ ∧
    (∃ s en, get_time_range_query ⟨2025, 12, 15, 9, 30, 0⟩ "this_month" =
        .ok (.vobj [("$gte", .vdt s), ("$lt", .vdt en)]) ∧
      atMidnight s ∧ atMidnight en ∧ dateVal s < dateVal en) ∧
    get_time_range_query ⟨2025, 12, 15, 9, 30, 0⟩ "next_month" =
      .error (.valueError "Unsupported time range: next_month") :=
  ⟨by decide,
   (get_time_range_query_bounds ⟨2025, 12, 15, 9, 30, 0⟩ (by decide)
      "this_month").1 (by simp),
   (get_time_range_query_bounds ⟨2025, 12, 15, 9, 30, 0⟩ (by decide)
      "next_month").2 (by simp)⟩

/-! ## C9: `_fix_date_formats` idempotence -/

/-- The first-branch guard is invariant under the rewriting (keys are
preserved). -/
theorem isDictWithDateStringAndFormat_fix (v : BVal) :
    isDictWithDateStringAndFormat (fix_date_formats v) =
      isDictWithDateStringAndFormat v := by
  cases v with
  | vobj m =>
      simp [fix_date_formats, isDictWithDateStringAndFormat,
        dictContains_fixObjEntries]
  | varr l => rfl
  | vstr s => rfl
  | vint i => rfl
  | vnum s => rfl
  | vbool b => rfl
  | vnone => rfl
  | vdt dt => rfl
  | vobjid s => rfl

/-- The second-branch guard is invariant under the rewriting. -/
theorem isDictWithFormat_fix (v : BVal) :
    isDictWithFormat (fix_date_formats v) = isDictWithFormat v := by
  cases v with
  | vobj m =>
      simp [fix_date_formats, isDictWithFormat, dictContains_fixObjEntries]
  | varr l => rfl
  | vstr s => rfl
  | vint i => rfl
  | vnum s => rfl
  | vbool b => rfl
  | vnone => rfl
  | vdt dt => rfl
  | vobjid s => rfl

/-- A date-conversion operator key is not $dateFromString. -/
theorem isDateConvOp_ne_dfs (k : String) (h : isDateConvOp k = true) :
    ¬ k = "$dateFromString" := by
  intro he
  rw [he] at h
  simp [isDateConvOp] at h

mutual
/-- Restricted idempotence over values. -/
theorem fix_idem : ∀ q : BVal, noBadDFS q = true →
    fix_date_formats (fix_date_formats q) = fix_date_formats q
  | .vobj entries => fun h => by
      simp only [fix_date_formats]
      rw [fixO_idem entries (by simpa [noBadDFS] using h)]
  | .varr items => fun h => by
      simp only [fix_date_formats]
      rw [fixL_idem items (by simpa [noBadDFS] using h)]
  | .vstr s => fun _ => rfl
  | .vint i => fun _ => rfl
  | .vnum s => fun _ => rfl
  | .vbool b => fun _ => rfl
  | .vnone => fun _ => rfl
  | .vdt dt => fun _ => rfl
  | .vobjid s => fun _ => rfl

/-- Restricted idempotence over dict entries. -/
theorem fixO_idem : ∀ l : List (String × BVal), noBadDFSObj l = true →
    fixObjEntries (fixObjEntries l) = fixObjEntries l
  | [] => fun _ => rfl
  | (k, v) :: rest => fun h => by
      simp only [noBadDFSObj, Bool.and_eq_true, decide_eq_true_eq] at h
      obtain ⟨⟨h1, h2⟩, h3⟩ := h
      have htail := fixO_idem rest h3
      by_cases c2 : isDateConvOp k = true
      · have hne := isDateConvOp_ne_dfs k c2
        by_cases c3 : isDictWithFormat v = true
        · cases v with
          | vobj m =>
              simp only [fixObjEntries, h1, c2, c3, if_true, if_false,
                ite_true, ite_false, hne, formatToIsoReplacement]
              simp only [isDictWithFormat] at c3
              simp [fixObjEntries, hne, c2, isDictWithFormat,
                dictContains_dictSet, c3, formatToIsoReplacement,
                dictSet_idem, htail]
          | vstr s => simp [isDictWithFormat] at c3
          | vint i => simp [isDictWithFormat] at c3
          | vnum s => simp [isDictWithFormat] at c3
          | vbool b => simp [isDictWithFormat] at c3
          | vnone => simp [isDictWithFormat] at c3
          | vdt dt => simp [isDictWithFormat] at c3
          | vobjid s => simp [isDictWithFormat] at c3
          | varr l => simp [isDictWithFormat] at c3
        · have hrec := fix_idem v h2
          simp [fixObjEntries, h1, c2, c3, hne, isDictWithFormat_fix, hrec,
            htail, isDictWithDateStringAndFormat_fix]
      · cases v with
        | vobj m =>
            have hrec := fix_idem (BVal.vobj m) h2
            simp only [fix_date_formats] at hrec
            have hb : isDictWithDateStringAndFormat (BVal.vobj (fixObjEntries m)) =
                isDictWithDateStringAndFormat (BVal.vobj m) := by
              simp [isDictWithDateStringAndFormat, dictContains_fixObjEntries]
            simp [fixObjEntries, h1, c2, fix_date_formats, htail, hb, hrec]
        | varr l =>
            have hrec := fix_idem (BVal.varr l) h2
            simp only [fix_date_formats] at hrec
            simp [fixObjEntries, h1, c2, fix_date_formats, htail,
              isDictWithDateStringAndFormat, hrec]
        | vstr s => simp [fixObjEntries, h1, c2, htail]
        | vint i => simp [fixObjEntries, h1, c2, htail]
        | vnum s => simp [fixObjEntries, h1, c2, htail]
        | vbool b => simp [fixObjEntries, h1, c2, htail]
        | vnone => simp [fixObjEntries, h1, c2, htail]
        | vdt dt => simp [fixObjEntries, h1, c2, htail]
        | vobjid s => simp [fixObjEntries, h1, c2, htail]

/-- Restricted idempotence over list items. -/
theorem fixL_idem : ∀ l : List BVal, noBadDFSList l = true →
    fixListItems (fixListItems l) = fixListItems l
  | [] => fun _ => rfl
  | item :: rest => fun h => by
      simp only [noBadDFSList, Bool.and_eq_true] at h
      have htail := fixL_idem rest h.2
      cases item with
      | vobj m =>
          have hrec := fix_idem (BVal.vobj m) h.1
          simp [fixListItems, fix_date_formats, htail]
          simpa [fix_date_formats] using hrec
      | varr l2 =>
          have hrec := fix_idem (BVal.varr l2) h.1
          simp [fixListItems, fix_date_formats, htail]
          simpa [fix_date_formats] using hrec
      | vstr s => simp [fixListItems, htail]
      | vint i => simp [fixListItems, htail]
      | vnum s => simp [fixListItems, htail]
      | vbool b => simp [fixListItems, htail]
      | vnone => simp [fixListItems, htail]
      | vdt dt => simp [fixListItems, htail]
      | vobjid s => simp [fixListItems, htail]
end

/-- C9 amended: `_fix_date_formats` is idempotent on every value that
nowhere holds a "$dateFromString" entry whose value is a dict with both
"dateString" and "format" (the restriction the counterexample forces: that
branch keeps the dateString value unrewritten, so a second pass can still
change it). -/
theorem fix_date_formats_restricted_idempotent (q : BVal)
    (h : noBadDFS q = true) :
    fix_date_formats (fix_date_formats q) = fix_date_formats q :=
  fix_idem q h

/-- C9 amended witness: a $dateToString query with a custom format is
rewritten once and a second pass changes nothing. -/
theorem fix_date_formats_restricted_idempotent_witness :
    noBadDFS (.vobj [("$dateToString",
      .vobj [("format", .vstr "%d.%m.%Y"), ("date", .vstr "$createdOn")])]) = true ∧
    fix_date_formats (fix_date_formats (.vobj [("$dateToString",
      .vobj [("format", .vstr "%d.%m.%Y"), ("date", .vstr "$createdOn")])])) =
      fix_date_formats (.vobj [("$dateToString",
        .vobj [("format", .vstr "%d.%m.%Y"), ("date", .vstr "$createdOn")])]) :=
  ⟨rfl, fix_date_formats_restricted_idempotent _ rfl⟩

/-- C9 counterexample: a "$dateFromString" whose dateString value hides a
second fixable "$dateFromString" is not a fixpoint after one pass: the
first pass deletes the outer format but keeps the dateString value
verbatim, and only the second pass rewrites the inner operator, so
fix_date_formats applied twice differs from once. -/
theorem fix_date_formats_not_idempotent_cex :
    fix_date_formats (fix_date_formats (.vobj [("$dateFromString",
      .vobj [("dateString", .vobj [("$dateFromString",
        .vobj [("dateString", .vstr "2024-01-01"), ("format", .vstr "%d.%m.%Y")])]),
       ("format", .vstr "%d.%m.%Y")])])) ≠
    fix_date_formats (.vobj [("$dateFromString",
      .vobj [("dateString", .vobj [("$dateFromString",
        .vobj [("dateString", .vstr "2024-01-01"), ("format", .vstr "%d.%m.%Y")])]),
       ("format", .vstr "%d.%m.%Y")])]) :=
  fun h => absurd (congrArg pyStr h) (by decide)

/-! ## C6: schema-analysis invariants -/

/-- Python set.add keeps the list duplicate-free. -/
theorem setInsert_nodup (l : List String) (x : String) (h : l.Nodup) :
    (setInsert l x).Nodup := by
  unfold setInsert
  split_ifs with hx
  · exact h
  · simp [List.nodup_append, h, hx]

/-- A successful fields lookup is a membership. -/
theorem fieldsLookup_mem (fs : Fields) (k : String) (info : FieldInfo)
    (h : fieldsLookup fs k = some info) : (k, info) ∈ fs := by
  induction fs with
  | nil => cases h
  | cons q rest ih =>
      obtain ⟨k0, v0⟩ := q
      unfold fieldsLookup at h
      by_cases hk : k0 = k
      · rw [if_pos hk] at h
        cases h
        subst hk
        exact List.mem_cons_self _ _
      · rw [if_neg hk] at h
        exact List.mem_cons_of_mem _ (ih h)

/-- The entries after fieldsEnsure: the old ones or the fresh empty
record. -/
theorem fieldsEnsure_mem (fs : Fields) (name : String) (p : String × FieldInfo)
    (h : p ∈ fieldsEnsure fs name) : p ∈ fs ∨ p = (name, ⟨[], []⟩) := by
  unfold fieldsEnsure at h
  split_ifs at h with hc
  · exact .inl h
  · rcases List.mem_append.mp h with h2 | h2
    · exact .inl h2
    · exact .inr (by simpa using h2)

/-- The entries after fieldsUpdate: the old ones or the rewrite of an old
entry at the key. -/
theorem fieldsUpdate_mem (fs : Fields) (key : String) (g : FieldInfo → FieldInfo)
    (p : String × FieldInfo) (h : p ∈ fieldsUpdate fs key g) :
    p ∈ fs ∨ ∃ q ∈ fs, q.1 = key ∧ p = (key, g q.2) := by
  induction fs with
  | nil => cases h
  | cons q0 rest ih =>
      unfold fieldsUpdate at h
      by_cases hk : q0.1 = key
      · rw [if_pos hk] at h
        rcases List.mem_cons.mp h with h2 | h2
        · exact .inr ⟨q0, List.mem_cons_self _ _, hk, by rw [h2, hk]⟩
        · exact .inl (List.mem_cons_of_mem _ h2)
      · rw [if_neg hk] at h
        rcases List.mem_cons.mp h with h2 | h2
        · exact .inl (h2 ▸ List.mem_cons_self _ _)
        · rcases ih h2 with h3 | ⟨q, hq, hq1, hq2⟩
          · exact .inl (List.mem_cons_of_mem _ h3)
          · exact .inr ⟨q, List.mem_cons_of_mem _ hq, hq1, hq2⟩

/-- recordEntry preserves the per-entry invariant. -/
theorem recordEntry_inv (fs : Fields) (name : String) (v : BVal)
    (h : ∀ p ∈ fs, fieldInv p) : ∀ p ∈ recordEntry fs name v, fieldInv p := by
  intro p hp
  unfold recordEntry at hp
  have hbase : ∀ q ∈ fieldsEnsure fs name, fieldInv q := by
    intro q hq
    rcases fieldsEnsure_mem fs name q hq with h2 | h2
    · exact h q h2
    · rw [h2]
      exact ⟨List.nodup_nil, by simp, fun _ => rfl⟩
  rcases fieldsUpdate_mem _ _ _ _ hp with h2 | ⟨q, hq, hq1, hq2⟩
  · exact hbase p h2
  · have hqinv := hbase q hq
    rw [hq2]
    refine ⟨?_, ?_, ?_⟩
    · simp only []
      split_ifs <;> exact setInsert_nodup _ _ hqinv.1
    · simp only []
      split_ifs with hcond
      · have h2 := hcond.2
        simp only [List.length_append, List.length_singleton]
        omega
      · exact hqinv.2.1
    · intro hid
      simp only []
      split_ifs with hcond
      · exact absurd hid hcond.1
      · exact hqinv.2.2 (hq1.trans hid)

/-- fieldsUpdate never changes the key list. -/
theorem keys_fieldsUpdate (fs : Fields) (key : String) (g : FieldInfo → FieldInfo) :
    (fieldsUpdate fs key g).map Prod.fst = fs.map Prod.fst := by
  induction fs with
  | nil => rfl
  | cons q rest ih =>
      unfold fieldsUpdate
      split_ifs with hk
      · simp
      · simp [ih]

/-- fieldsEnsure appends the name exactly when it is absent. -/
theorem keys_fieldsEnsure (fs : Fields) (name : String) :
    (fieldsEnsure fs name).map Prod.fst =
      if fieldsContains fs name then fs.map Prod.fst else fs.map Prod.fst ++ [name] := by
  unfold fieldsEnsure
  split_ifs <;> simp

/-- fieldsContains decides membership in the key list. -/
theorem fieldsContains_iff (fs : Fields) (k : String) :
    fieldsContains fs k = true ↔ k ∈ fs.map Prod.fst := by
  induction fs with
  | nil => simp [fieldsContains, fieldsLookup]
  | cons q rest ih =>
      obtain ⟨k0, v0⟩ := q
      unfold fieldsContains fieldsLookup
      by_cases hk : k0 = k
      · simp [hk]
      · rw [if_neg hk]
        unfold fieldsContains at ih
        simp [ih, hk, Ne.symm hk]

/-- The key list after recordEntry: the old keys plus the recorded name. -/
theorem mem_keys_recordEntry (fs : Fields) (name : String) (v : BVal) (key : String) :
    key ∈ (recordEntry fs name v).map Prod.fst ↔ key ∈ fs.map Prod.fst ∨ key = name := by
  unfold recordEntry
  rw [keys_fieldsUpdate, keys_fieldsEnsure]
  split_ifs with hc
  · constructor
    · exact Or.inl
    · rintro (h | h)
      · exact h
      · rw [h]
        exact (fieldsContains_iff fs name).mp hc
  · simp

mutual
/-- _analyze_document preserves the per-field invariant of every entry. -/
theorem analyze_document_inv : ∀ (entries : List (String × BVal)) (pre : String)
    (fs : Fields), (∀ p ∈ fs, fieldInv p) →
    ∀ p ∈ analyze_document pre entries fs, fieldInv p
  | [], pre, fs, h => by simpa [analyze_document] using h
  | (k, v) :: rest, pre, fs, h => by
      simp only [analyze_document]
      exact analyze_document_inv rest pre _
        (analyzeValue_inv v _ _ (recordEntry_inv fs (pre ++ k) _ h))

/-- The per-value recursion preserves the per-field invariant. -/
theorem analyzeValue_inv : ∀ (v : BVal) (fieldName : String) (fs : Fields),
    (∀ p ∈ fs, fieldInv p) → ∀ p ∈ analyzeValue fieldName v fs, fieldInv p
  | .vobj inner, fn, fs, h => by
      simp only [analyzeValue]
      exact analyze_document_inv inner _ _ h
  | .varr items, fn, fs, h => by
      simp only [analyzeValue]
      exact analyzeArrayHead_inv items _ _ h
  | .vstr _, fn, fs, h => by simpa [analyzeValue] using h
  | .vint _, fn, fs, h => by simpa [analyzeValue] using h
  | .vnum _, fn, fs, h => by simpa [analyzeValue] using h
  | .vbool _, fn, fs, h => by simpa [analyzeValue] using h
  | .vnone, fn, fs, h => by simpa [analyzeValue] using h
  | .vdt _, fn, fs, h => by simpa [analyzeValue] using h
  | .vobjid _, fn, fs, h => by simpa [analyzeValue] using h

/-- The array-head recursion preserves the per-field invariant. -/
theorem analyzeArrayHead_inv : ∀ (items : List BVal) (pre : String)
    (fs : Fields), (∀ p ∈ fs, fieldInv p) →
    ∀ p ∈ analyzeArrayHead pre items fs, fieldInv p
  | [], pre, fs, h => by simpa [analyzeArrayHead] using h
  | item :: _, pre, fs, h => by
      simp only [analyzeArrayHead]
      exact analyzeHeadVal_inv item _ _ h

/-- The head-value recursion preserves the per-field invariant. -/
theorem analyzeHeadVal_inv : ∀ (v : BVal) (pre : String) (fs : Fields),
    (∀ p ∈ fs, fieldInv p) → ∀ p ∈ analyzeHeadVal pre v fs, fieldInv p
  | .vobj inner, pre, fs, h => by
      simp only [analyzeHeadVal]
      exact analyze_document_inv inner _ _ h
  | .vstr _, pre, fs, h => by simpa [analyzeHeadVal] using h
  | .vint _, pre, fs, h => by simpa [analyzeHeadVal] using h
  | .vnum _, pre, fs, h => by simpa [analyzeHeadVal] using h
  | .vbool _, pre, fs, h => by simpa [analyzeHeadVal] using h
  | .vnone, pre, fs, h => by simpa [analyzeHeadVal] using h
  | .vdt _, pre, fs, h => by simpa [analyzeHeadVal] using h
  | .vobjid _, pre, fs, h => by simpa [analyzeHeadVal] using h
  | .varr _, pre, fs, h => by simpa [analyzeHeadVal] using h
end

mutual
/-- The keys _analyze_document produces: the old keys plus the document's
dotted paths. -/
theorem analyze_document_keys : ∀ (entries : List (String × BVal)) (pre : String)
    (fs : Fields) (key : String),
    (key ∈ (analyze_document pre entries fs).map Prod.fst ↔
      key ∈ fs.map Prod.fst ∨ key ∈ docPaths pre entries)
  | [], pre, fs, key => by simp [analyze_document, docPaths]
  | (k, v) :: rest, pre, fs, key => by
      simp only [analyze_document, docPaths]
      rw [analyze_document_keys rest, analyzeValue_keys v, mem_keys_recordEntry]
      simp only [List.mem_append, List.mem_cons]
      tauto

/-- The keys the per-value recursion adds are the value's paths. -/
theorem analyzeValue_keys : ∀ (v : BVal) (fieldName : String) (fs : Fields)
    (key : String),
    (key ∈ (analyzeValue fieldName v fs).map Prod.fst ↔
      key ∈ fs.map Prod.fst ∨ key ∈ valPaths fieldName v)
  | .vobj inner, fn, fs, key => by
      simp only [analyzeValue, valPaths]
      exact analyze_document_keys inner _ fs key
  | .varr items, fn, fs, key => by
      simp only [analyzeValue, valPaths]
      exact analyzeArrayHead_keys items _ fs key
  | .vstr _, fn, fs, key => by simp [analyzeValue, valPaths]
  | .vint _, fn, fs, key => by simp [analyzeValue, valPaths]
  | .vnum _, fn, fs, key => by simp [analyzeValue, valPaths]
  | .vbool _, fn, fs, key => by simp [analyzeValue, valPaths]
  | .vnone, fn, fs, key => by simp [analyzeValue, valPaths]
  | .vdt _, fn, fs, key => by simp [analyzeValue, valPaths]
  | .vobjid _, fn, fs, key => by simp [analyzeValue, valPaths]

/-- The keys the array-head recursion adds are the head's paths. -/
theorem analyzeArrayHead_keys : ∀ (items : List BVal) (pre : String)
    (fs : Fields) (key : String),
    (key ∈ (analyzeArrayHead pre items fs).map Prod.fst ↔
      key ∈ fs.map Prod.fst ∨ key ∈ arrayHeadPaths pre items)
  | [], pre, fs, key => by simp [analyzeArrayHead, arrayHeadPaths]
  | item :: _, pre, fs, key => by
      simp only [analyzeArrayHead, arrayHeadPaths]
      exact analyzeHeadVal_keys item pre fs key

/-- The keys the head-value recursion adds are the dict head's paths. -/
theorem analyzeHeadVal_keys : ∀ (v : BVal) (pre : String) (fs : Fields)
    (key : String),
    (key ∈ (analyzeHeadVal pre v fs).map Prod.fst ↔
      key ∈ fs.map Prod.fst ∨ key ∈ headValPaths pre v)
  | .vobj inner, pre, fs, key => by
      simp only [analyzeHeadVal, headValPaths]
      exact analyze_document_keys inner pre fs key
  | .vstr _, pre, fs, key => by simp [analyzeHeadVal, headValPaths]
  | .vint _, pre, fs, key => by simp [analyzeHeadVal, headValPaths]
  | .vnum _, pre, fs, key => by simp [analyzeHeadVal, headValPaths]
  | .vbool _, pre, fs, key => by simp [analyzeHeadVal, headValPaths]
  | .vnone, pre, fs, key => by simp [analyzeHeadVal, headValPaths]
  | .vdt _, pre, fs, key => by simp [analyzeHeadVal, headValPaths]
  | .vobjid _, pre, fs, key => by simp [analyzeHeadVal, headValPaths]
  | .varr _, pre, fs, key => by simp [analyzeHeadVal, headValPaths]
end

/-- Folding the sampled documents preserves the per-field invariant. -/
theorem foldl_analyze_inv (docs : List (List (String × BVal))) : ∀ (fs : Fields),
    (∀ p ∈ fs, fieldInv p) →
    ∀ p ∈ docs.foldl (fun acc doc => analyze_document "" doc acc) fs, fieldInv p := by
  induction docs with
  | nil => intro fs h; simpa using h
  | cons d rest ih =>
      intro fs h
      simp only [List.foldl_cons]
      exact ih _ (analyze_document_inv d "" fs h)

/-- The keys after folding the sampled documents: the starting keys plus
a path of some document. -/
theorem foldl_analyze_keys (docs : List (List (String × BVal))) : ∀ (fs : Fields)
    (key : String),
    (key ∈ (docs.foldl (fun acc doc => analyze_document "" doc acc) fs).map Prod.fst ↔
      key ∈ fs.map Prod.fst ∨ ∃ doc ∈ docs, key ∈ docPaths "" doc) := by
  induction docs with
  | nil => intro fs key; simp
  | cons d rest ih =>
      intro fs key
      simp only [List.foldl_cons]
      rw [ih, analyze_document_keys]
      simp only [List.mem_cons]
      constructor
      · rintro ((h | h) | ⟨doc, hd, hk⟩)
        · exact .inl h
        · exact .inr ⟨d, .inl rfl, h⟩
        · exact .inr ⟨doc, .inr hd, hk⟩
      · rintro (h | ⟨doc, hd | hd, hk⟩)
        · exact .inl (.inl h)
        · exact .inl (.inr (hd ▸ hk))
        · exact .inr ⟨doc, hd, hk⟩

/-- dateFieldsOf is empty exactly when no field has a date-like type. -/
theorem dateFieldsOf_isEmpty (fs : Fields) :
    (dateFieldsOf fs).isEmpty = true ↔
      ∀ p ∈ fs, ¬((p.2.types.contains "datetime" || p.2.types.contains "date") = true) := by
  unfold dateFieldsOf
  rw [List.isEmpty_iff, List.map_eq_nil_iff, List.filter_eq_nil_iff]

/-- C6: after `_analyze_collection` runs on any sample of documents, every
field record has a duplicate-free types list and at most three examples,
the `_id` field keeps no examples, date_fields is present exactly when some
field's types contain datetime or date, and the recorded field names are
exactly the dotted paths (`parent.child`, `parent[].child`) contributed by
the sampled documents. -/
theorem analyze_collection_invariants (total : Int)
    (docs : List (List (String × BVal))) :
    (∀ p ∈ (analyze_collection total docs).fields,
        p.2.types.Nodup ∧ p.2.examples.length ≤ 3 ∧
        (p.1 = "_id" → p.2.examples = [])) ∧
    ((analyze_collection total docs).date_fields.isSome = true ↔
      ∃ p ∈ (analyze_collection total docs).fields,
        (p.2.types.contains "datetime" || p.2.types.contains "date") = true) ∧
    (∀ key, key ∈ (analyze_collection total docs).fields.map Prod.fst ↔
      ∃ doc ∈ docs, key ∈ docPaths "" doc) := by
  refine ⟨?_, ?_, ?_⟩
  · intro p hp
    exact foldl_analyze_inv docs [] (by simp) p hp
  · simp only [analyze_collection]
    split_ifs with he
    · simp only [Option.isSome_none, Bool.false_eq_true, false_iff]
      rintro ⟨p, hp, hcond⟩
      exact (dateFieldsOf_isEmpty _).mp he p hp hcond
    · simp only [Option.isSome_some, true_iff]
      by_contra hnone
      push_neg at hnone
      exact he ((dateFieldsOf_isEmpty _).mpr fun p hp => hnone p hp)
  · intro key
    rw [show (analyze_collection total docs).fields =
        docs.foldl (fun acc doc => analyze_document "" doc acc) [] from rfl]
    rw [foldl_analyze_keys]
    simp

/-- C10: ask's error surface is asymmetric.  For a non-command question it
never raises: it answers with the engine unchanged, and when the try block
of the query path fails the reply is the error message behind the prefix
"Error: ".  For a "use collection" command naming a collection that is
neither cached nor in the database, the ValueError of
set_current_collection propagates to the caller, because the command
dispatch runs outside the try/except. -/
theorem ask_error_asymmetry :
    (∀ (e : Engine) (question : String),
      startsWithCL (pyLower question).data ("use collection ").data = false →
      pyLower question ≠ "list collections" →
      pyLower question ≠ "show schema" →
      pyLower question ≠ "describe collection" →
      pyLower question ≠ "collection stats" →
      pyLower question ≠ "stats" →
      (∃ reply, ask e question = .ok (reply, e)) ∧
      (∀ err col, e.current_collection = some col →
        askTryBody e question = .error err →
        ask e question = .ok ("Error: " ++ err.message, e) ∧
        startsWithCL ("Error: " ++ err.message).data ("Error: ").data = true)) ∧
    (∀ (e : Engine) (name : String),
      metaLookup e.collections (pyStrip name) = none →
      pyStrip name ∉ e.dbCollectionNames →
      ask e ("use collection " ++ name) =
        .error (.valueError ("Collection '" ++ pyStrip name ++
          "' does not exist in the database"))) := by
  constructor
  · intro e question h1 h2 h3 h4 h5 h6
    have hask : ask e question =
        (match e.current_collection with
         | none =>
             .ok ("Please select a collection first using 'use collection [name]'", e)
         | some _ =>
             match askTryBody e question with
             | .ok s => .ok (s, e)
             | .error err => .ok ("Error: " ++ err.message, e)) := by
      simp only [ask]
      rw [if_neg (by simp [h1]), if_neg h2, if_neg (by tauto), if_neg (by tauto)]
    constructor
    · cases hc : e.current_collection with
      | none => exact ⟨_, by rw [hask, hc]⟩
      | some col =>
          cases hq : askTryBody e question with
          | ok s => exact ⟨s, by rw [hask, hc, hq]⟩
          | error err => exact ⟨_, by rw [hask, hc, hq]⟩
    · intro err col hc hq
      refine ⟨by rw [hask, hc, hq], ?_⟩
      rw [String.data_append]
      exact startsWithCL_append _ _
  · intro e name hmeta hmem
    have hlow : startsWithCL (pyLower ("use collection " ++ name)).data
        ("use collection ").data = true := by
      show startsWithCL (("use collection " ++ name).data.map Char.toLower)
        ("use collection ").data = true
      rw [String.data_append, List.map_append]
      exact startsWithCL_append _ _
    have hdrop : (("use collection " ++ name) : String).data.drop 15 = name.data := by
      rw [String.data_append]
      exact List.drop_left "use collection ".data name.data
    rw [ask, if_pos hlow, hdrop]
    show set_current_collection e (pyStrip name) = _
    rw [set_current_collection, hmeta]
    simp only [Option.isSome_none, Bool.false_eq_true, if_false]
    rw [if_neg hmem]
    rfl
